import Mathlib

/-!
# Leader election loop of etcd-backup-restore (`pkg/leaderelection/leaderelection.go`)

A shallow embedding of `LeaderElector.Run`: the loop's record and its two local
variables become an explicit state, every function call of the loop body appends
an event to a trace, and calling a nil function value stops execution with a
panic that keeps the state reached so far.
-/

namespace LeaderElection

/-! ## Constants (lines 28-43) -/

/-- StateFollower defines currentState of backup-restore as "Follower". -/
def StateFollower : String := "Follower"

/-- StateCandidate defines currentState of backup-restore as "Candidate". -/
def StateCandidate : String := "Candidate"

/-- StateLeader defines currentState of backup-restore as "Leader". -/
def StateLeader : String := "Leader"

/-- StateUnknown defines currentState of backup-restore as "UnknownState". -/
def StateUnknown : String := "UnknownState"

/-- DefaultCurrentState defines default currentState of backup-restore as "Follower". -/
def DefaultCurrentState : String := StateFollower

/-! ## Data model (lines 45-68) -/

/-- The record `brtypes.LeaderCallbacks`: a field is `true` when the function
value stored in it is non-nil. -/
structure LeaderCallbacks where
  OnStartedLeading : Bool
  OnStoppedLeading : Bool
  deriving DecidableEq, Repr

/-- The record `brtypes.MemberLeaseCallbacks`: a field is `true` when the
function value stored in it is non-nil. -/
structure MemberLeaseCallbacks where
  StartLeaseRenewal : Bool
  StopLeaseRenewal : Bool
  deriving DecidableEq, Repr

/-- The fields of `LeaderElector` that `Run` reads or writes. The checker
`CheckLeadershipStatus` is injected, so its outcomes are inputs of the loop. -/
structure LeaderElector where
  CurrentState : String
  Callbacks : LeaderCallbacks
  LeaseCallbacks : MemberLeaseCallbacks
  deriving DecidableEq, Repr

/-- NewLeaderElector returns LeaderElector configurations (the error is always nil). -/
def NewLeaderElector (callbacks : LeaderCallbacks) (memberLeaseCallbacks : MemberLeaseCallbacks) :
    LeaderElector :=
  { CurrentState := DefaultCurrentState
    Callbacks := callbacks
    LeaseCallbacks := memberLeaseCallbacks }

/-- What the loop body does that an observer can see, in program order. A
context made by `context.WithCancel` is named by its allocation number. -/
inductive Event where
  | StopLeaseRenewal
  | StartLeaseRenewal
  | OnStartedLeading (leCtx : Option Nat)
  | OnStoppedLeading
  | WithCancel (scope : Nat)
  | Cancel (scope : Nat)
  | SetCurrentState (v : String)
  deriving DecidableEq, Repr

/-- The state of a running `Run`: the elector, the locals `leCtx` and `leCancel`
(`none` is nil), the number of contexts allocated so far, and the trace. -/
structure RunState where
  le : LeaderElector
  leCtx : Option Nat
  leCancel : Option Nat
  scopes : Nat
  trace : List Event
  deriving DecidableEq, Repr

/-- Outcome of a piece of straight-line code: it ran to its end, or it called
a nil function value and panicked in the state reached so far. -/
inductive Step where
  | ok (s : RunState)
  | panic (s : RunState)
  deriving DecidableEq, Repr

/-- The state a step ended in, whether it completed or panicked. -/
def Step.state : Step → RunState
  | .ok s => s
  | .panic s => s

/-- Whether the step ran to its end. -/
def Step.completed : Step → Bool
  | .ok _ => true
  | .panic _ => false

/-- Sequencing: a panic skips everything after it. -/
def Step.andThen (r : Step) (k : RunState → Step) : Step :=
  match r with
  | .ok s => k s
  | .panic s => .panic s

/-- Records an event at the end of the trace. -/
def RunState.emit (s : RunState) (e : Event) : RunState :=
  { s with trace := s.trace ++ [e] }

/-- The assignment `le.CurrentState = v`. -/
def RunState.setCurrentState (s : RunState) (v : String) : RunState :=
  { s with le := { s.le with CurrentState := v }, trace := s.trace ++ [Event.SetCurrentState v] }

/-- Calling a callback field: a nil function value panics. -/
def callFn (fn : Bool) (e : Event) (s : RunState) : Step :=
  if fn then .ok (s.emit e) else .panic s

/-- The call `leCancel()`: a nil function value panics. -/
def callCancel (s : RunState) : Step :=
  match s.leCancel with
  | some c => .ok (s.emit (Event.Cancel c))
  | none => .panic s

/-- The assignment `leCtx, leCancel = context.WithCancel(ctx)` (line 120). -/
def withCancel (s : RunState) : RunState :=
  { s with
    leCtx := some s.scopes
    leCancel := some s.scopes
    scopes := s.scopes + 1
    trace := s.trace ++ [Event.WithCancel s.scopes] }

/-! ## The loop body (lines 85-147) -/

/-- One pass through the `time.After` case of the `select`: the checker has
returned `(isLeader, err)`, where `err = none` is a nil error. -/
def tick (s : RunState) (isLeader : Bool) (err : Option String) : Step :=
  if err.isSome then
    (if s.le.CurrentState ≠ StateUnknown ∧ s.le.LeaseCallbacks.StopLeaseRenewal = true then
        callFn s.le.LeaseCallbacks.StopLeaseRenewal Event.StopLeaseRenewal s
      else .ok s).andThen fun s =>
    (if s.le.CurrentState = StateLeader ∧ s.leCtx.isSome then
        (callCancel s).andThen fun s =>
        callFn s.le.Callbacks.OnStoppedLeading Event.OnStoppedLeading s
      else .ok s).andThen fun s =>
    .ok (s.setCurrentState StateUnknown)
  else if isLeader = true ∧ (s.le.CurrentState = StateFollower ∨ s.le.CurrentState = StateUnknown
      ∨ s.le.CurrentState = StateCandidate) then
    (if s.le.CurrentState = StateUnknown ∧ s.le.LeaseCallbacks.StartLeaseRenewal = true then
        callFn s.le.LeaseCallbacks.StartLeaseRenewal Event.StartLeaseRenewal s
      else .ok s).andThen fun s =>
    (Step.ok (s.setCurrentState StateLeader)).andThen fun s =>
    if s.le.Callbacks.OnStartedLeading = true then
      (Step.ok (withCancel s)).andThen fun s =>
      callFn s.le.Callbacks.OnStartedLeading (Event.OnStartedLeading s.leCtx) s
    else .ok s
  else if isLeader = true ∧ s.le.CurrentState = StateLeader then
    .ok s
  else if isLeader = false ∧ s.le.CurrentState = StateLeader then
    (Step.ok (s.setCurrentState StateFollower)).andThen fun s =>
    if s.leCtx.isSome then
      (callCancel s).andThen fun s =>
      callFn s.le.Callbacks.OnStoppedLeading Event.OnStoppedLeading s
    else .ok s
  else if isLeader = false ∧ s.le.CurrentState = StateUnknown then
    (if s.le.LeaseCallbacks.StartLeaseRenewal = true then
        callFn s.le.LeaseCallbacks.StartLeaseRenewal Event.StartLeaseRenewal s
      else .ok s).andThen fun s =>
    .ok (s.setCurrentState StateFollower)
  else if isLeader = false ∧ s.le.CurrentState = StateFollower then
    .ok s
  else
    .ok s

/-! ## The loop (lines 72-149) -/

/-- What the `select` of one iteration receives: the context is done, or the
timer fired and the checker returned `(isLeader, err)`. -/
inductive Signal where
  | Done
  | Tick (isLeader : Bool) (err : Option String)
  deriving DecidableEq, Repr

/-- Where `Run` stands after a finite list of signals. -/
inductive RunResult where
  | returned (s : RunState) (err : Option String)
  | waiting (s : RunState)
  | panicked (s : RunState)
  deriving DecidableEq, Repr

/-- The state `Run` is in, however it got there. -/
def RunResult.state : RunResult → RunState
  | .returned s _ => s
  | .waiting s => s
  | .panicked s => s

/-- The `ctx.Done()` case (lines 79-84). -/
def shutdown (s : RunState) : RunResult :=
  match (if s.leCancel.isSome then callCancel s else Step.ok s) with
  | .ok s => .returned s none
  | .panic s => .panicked s

/-- The `for`/`select` loop over the signals it receives. -/
def runLoop : RunState → List Signal → RunResult
  | s, [] => .waiting s
  | s, Signal.Done :: _ => shutdown s
  | s, Signal.Tick isLeader err :: rest =>
    match tick s isLeader err with
    | .ok s => runLoop s rest
    | .panic s => .panicked s

/-- The state in which `Run` enters its loop: both locals nil (lines 74-75). -/
def Run.start (le : LeaderElector) : RunState :=
  { le := le, leCtx := none, leCancel := none, scopes := 0, trace := [] }

/-- Run starts the LeaderElection loop and feeds it the given signals. -/
def Run (le : LeaderElector) (signals : List Signal) : RunResult :=
  runLoop (Run.start le) signals

/-! ## Observations on traces -/

/-- An invocation of one of the four callbacks. -/
def Event.isCallback : Event → Bool
  | .StopLeaseRenewal => true
  | .StartLeaseRenewal => true
  | .OnStartedLeading _ => true
  | .OnStoppedLeading => true
  | _ => false

/-- A Leading-Scope creation. -/
def Event.isWithCancel : Event → Bool
  | .WithCancel _ => true
  | _ => false

/-- An invocation of a Leading-Scope cancel function. -/
def Event.isCancel : Event → Bool
  | .Cancel _ => true
  | _ => false

/-- Number of Leading-Scope creations in a trace. -/
def creations (tr : List Event) : Nat := tr.countP Event.isWithCancel

/-- Number of Leading-Scope cancel invocations in a trace. -/
def cancellations (tr : List Event) : Nat := tr.countP Event.isCancel

/-- The scope was created and its cancel function has not been invoked. -/
def activeScope (tr : List Event) (scope : Nat) : Prop :=
  Event.WithCancel scope ∈ tr ∧ Event.Cancel scope ∉ tr

instance (tr : List Event) (scope : Nat) : Decidable (activeScope tr scope) := by
  unfold activeScope; infer_instance

/-- A Leading-Scope creation or cancel invocation. -/
def Event.isScope (e : Event) : Bool := e.isWithCancel || e.isCancel

/-- The scope creations and cancel invocations of a trace, in order. -/
def scopeTrace (tr : List Event) : List Event := tr.filter Event.isScope

/-- What one tick that runs to its end does to the Leading-Scope: it enters
Leader and creates a scope, enters Leader without one, leaves Leader and
invokes the cancel function of the scope in `leCtx`, leaves Leader when there
is none, or does neither. -/
inductive ScopeEffect (s t : RunState) : Prop where
  | enter (hs : s.le.CurrentState ≠ StateLeader) (ht : t.le.CurrentState = StateLeader)
      (hreg : s.le.Callbacks.OnStartedLeading = true) (hn : t.scopes = s.scopes + 1)
      (hx : t.leCtx = some s.scopes)
      (htr : scopeTrace t.trace = scopeTrace s.trace ++ [Event.WithCancel s.scopes])
  | enterBare (hs : s.le.CurrentState ≠ StateLeader) (ht : t.le.CurrentState = StateLeader)
      (hreg : s.le.Callbacks.OnStartedLeading = false) (hn : t.scopes = s.scopes)
      (hx : t.leCtx = s.leCtx) (htr : scopeTrace t.trace = scopeTrace s.trace)
  | leave (hs : s.le.CurrentState = StateLeader) (ht : t.le.CurrentState ≠ StateLeader)
      (hn : t.scopes = s.scopes) (hx : t.leCtx = s.leCtx) (c : Nat) (hc : s.leCtx = some c)
      (hreg : s.le.Callbacks.OnStoppedLeading = true)
      (htr : scopeTrace t.trace = scopeTrace s.trace ++ [Event.Cancel c])
  | leaveBare (hs : s.le.CurrentState = StateLeader) (ht : t.le.CurrentState ≠ StateLeader)
      (hn : t.scopes = s.scopes) (hx : t.leCtx = s.leCtx) (hc : s.leCtx = none)
      (htr : scopeTrace t.trace = scopeTrace s.trace)
  | stay (hst : s.le.CurrentState = StateLeader ↔ t.le.CurrentState = StateLeader)
      (hn : t.scopes = s.scopes) (hx : t.leCtx = s.leCtx)
      (htr : scopeTrace t.trace = scopeTrace s.trace)

/-- How the locals, the scope counter and the trace of a run hang together:
the two locals are set together and name the latest scope; scopes are created
only with `OnStartedLeading` registered; every scope was created once; every
scope but the one of a current tenure had its cancel function invoked once. -/
structure ScopeInv (s : RunState) : Prop where
  cancel_eq : s.leCancel = s.leCtx
  ctx_some : ∀ c, s.leCtx = some c → c + 1 = s.scopes
  ctx_none : s.leCtx = none → s.scopes = 0
  leader_scope : s.le.CurrentState = StateLeader → s.le.Callbacks.OnStartedLeading = true →
    0 < s.scopes
  unregistered : s.le.Callbacks.OnStartedLeading = false → s.scopes = 0
  created : ∀ id, s.trace.count (Event.WithCancel id) = if id < s.scopes then 1 else 0
  canceled : ∀ id, s.trace.count (Event.Cancel id) =
    if id < s.scopes ∧ ¬ (s.le.CurrentState = StateLeader ∧ id + 1 = s.scopes) then 1 else 0
  creations_eq : creations s.trace = s.scopes
  cancellations_leading : s.le.CurrentState = StateLeader → 0 < s.scopes →
    cancellations s.trace + 1 = s.scopes
  cancellations_eq : s.le.CurrentState ≠ StateLeader ∨ s.scopes = 0 →
    cancellations s.trace = s.scopes

/-- The balance of scope creations and cancel invocations in a state: equal
outside Leader, one creation ahead in Leader. -/
def ScopeCountsBalanced (s : RunState) : Prop :=
  (s.le.CurrentState ≠ StateLeader → creations s.trace = cancellations s.trace) ∧
  (s.le.CurrentState = StateLeader → creations s.trace = cancellations s.trace + 1)

instance (s : RunState) : Decidable (ScopeCountsBalanced s) := by
  unfold ScopeCountsBalanced; infer_instance

/-- The events one pass through the loop body adds to the trace. -/
def tickEvents (s : RunState) (isLeader : Bool) (err : Option String) : List Event :=
  (tick s isLeader err).state.trace.drop s.trace.length

/-- The callback invocations of a trace, in order. -/
def callbackTrace (tr : List Event) : List Event := tr.filter Event.isCallback

/-- The values `le.CurrentState` is assigned along a trace, in order. -/
def stateTrace : List Event → List String
  | [] => []
  | Event.SetCurrentState v :: tr => v :: stateTrace tr
  | _ :: tr => stateTrace tr

/-- An elector from the constructor with all four callbacks registered. -/
def allCallbacks : LeaderElector :=
  NewLeaderElector ⟨true, true⟩ ⟨true, true⟩

/-- An elector from the constructor with every callback registered except
`OnStoppedLeading`. -/
def noOnStoppedLeading : LeaderElector :=
  NewLeaderElector ⟨true, false⟩ ⟨true, true⟩

/-- An elector from the constructor with every callback registered except
`OnStartedLeading`. -/
def noOnStartedLeading : LeaderElector :=
  NewLeaderElector ⟨false, true⟩ ⟨true, true⟩

/-- The state after the first tick `(true, nil)` of an elector with all four
callbacks registered: Leader, with scope 0 active. -/
def leadingState : RunState :=
  (Run allCallbacks [Signal.Tick true none]).state

/-- The state after a first tick with a checker error, all four callbacks
registered: Unknown, no scope. -/
def unknownState : RunState :=
  (Run allCallbacks [Signal.Tick false (some "unavailable")]).state

/-- The state after the first tick `(true, nil)` when `OnStoppedLeading` is the
one callback not registered: Leader, with scope 0 active. -/
def leadingNoOnStoppedLeading : RunState :=
  (Run noOnStoppedLeading [Signal.Tick true none]).state

/-- The state after the first tick `(true, nil)` when `OnStartedLeading` is the
one callback not registered: Leader, and no scope was created. -/
def leadingNoOnStartedLeading : RunState :=
  (Run noOnStartedLeading [Signal.Tick true none]).state

/-- The signals of a list of checker outcomes, one tick each. -/
def ticksOf (outcomes : List (Bool × Option String)) : List Signal :=
  outcomes.map fun o => Signal.Tick o.1 o.2

/-! ## The leadership check (lines 41-43 and 151-188) -/

/-- NoLeaderState defines the state when etcd returns LeaderID as 0. -/
def NoLeaderState : Nat := 0

/-- The error values `IsLeader` handles: an `*errors.EtcdError` with its
`Message` field, a plain error made by `fmt.Errorf`, and an error value handed
back by the etcd client library. -/
inductive Error where
  | EtcdError (Message : String)
  | Errorf (text : String)
  | client (text : String)
  deriving DecidableEq, Repr

/-- The field of `brtypes.EtcdConnectionConfig` that `IsLeader` reads. -/
structure EtcdConnectionConfig where
  Endpoints : List String
  deriving DecidableEq, Repr

/-- The header of a status response; member identifiers are `uint64` values,
which are only compared for equality here. -/
structure ResponseHeader where
  MemberId : Nat
  deriving DecidableEq, Repr

/-- The fields of the status response that `IsLeader` reads. -/
structure StatusResponse where
  Header : ResponseHeader
  Leader : Nat
  deriving DecidableEq, Repr

/-- What `IsLeader` gets from outside the package: the result of
`etcdutil.NewFactory(cfg).NewMaintenance()` (a client or an error), the result
of `client.Status(ctx, endPoint)`, and the text `%v` prints for an error. -/
structure Etcd where
  NewMaintenance : EtcdConnectionConfig → Except Error Unit
  Status : String → Except Error StatusResponse
  format : Error → String

/-- The calls `IsLeader` makes to the outside, in program order; the deferred
calls run when the function returns, last deferred first. -/
inductive Call where
  | NewFactory
  | NewMaintenance
  | Close
  | WithTimeout
  | Status (endPoint : String)
  | cancel
  deriving DecidableEq, Repr

/-- The message of the plain error for an empty endpoint list (line 168). -/
def endpointsMessage : String := "etcd endpoints are not passed correctly"

/-- The context put before the text of a client construction failure (line 160). -/
def maintenanceContext : String := "failed to create etcd maintenance client: "

/-- The message of the no-leader error (line 184). -/
def noLeaderMessage : String :=
  "currently there is no etcd leader present may be due to etcd quorum loss or election is being held"

/-- IsLeader checks whether the current instance of backup-restore is leader or
not. The result is the returned pair `(bool, error)`, with `none` for a nil
error, and the calls made. -/
def IsLeader (etcd : Etcd) (etcdConnectionConfig : EtcdConnectionConfig) :
    (Bool × Option Error) × List Call :=
  match etcd.NewMaintenance etcdConnectionConfig with
  | .error err =>
    ((false, some (Error.EtcdError (maintenanceContext ++ etcd.format err))),
      [Call.NewFactory, Call.NewMaintenance])
  | .ok _ =>
    match etcdConnectionConfig.Endpoints with
    | [] =>
      ((false, some (Error.Errorf endpointsMessage)),
        [Call.NewFactory, Call.NewMaintenance, Call.Close])
    | endPoint :: _ =>
      match etcd.Status endPoint with
      | .error err =>
        ((false, some err),
          [Call.NewFactory, Call.NewMaintenance, Call.WithTimeout, Call.Status endPoint,
            Call.cancel, Call.Close])
      | .ok response =>
        (if response.Header.MemberId = response.Leader then (true, none)
          else if response.Leader = NoLeaderState then
            (false, some (Error.EtcdError noLeaderMessage))
          else (false, none),
          [Call.NewFactory, Call.NewMaintenance, Call.WithTimeout, Call.Status endPoint,
            Call.cancel, Call.Close])

/-- The text of an error as its own message. -/
def Error.text : Error → String
  | .EtcdError m => m
  | .Errorf t => t
  | .client t => t

/-- An etcd whose client construction succeeds and whose status query answers
with the given member and leader identifiers. -/
def etcdAnswering (memberId leader : Nat) : Etcd :=
  { NewMaintenance := fun _ => .ok ()
    Status := fun _ => .ok { Header := { MemberId := memberId }, Leader := leader }
    format := Error.text }

/-- An etcd whose client construction fails with the given error. -/
def etcdNoClient (e : Error) : Etcd :=
  { NewMaintenance := fun _ => .error e
    Status := fun _ => .ok { Header := { MemberId := 1 }, Leader := 1 }
    format := Error.text }

/-- An etcd whose client construction succeeds and whose status query fails
with the given error. -/
def etcdNoStatus (e : Error) : Etcd :=
  { NewMaintenance := fun _ => .ok ()
    Status := fun _ => .error e
    format := Error.text }

/-- A connection configuration with one endpoint. -/
def oneEndpoint : EtcdConnectionConfig := { Endpoints := ["http://127.0.0.1:2379"] }

/-- A connection configuration with no endpoint. -/
def noEndpoint : EtcdConnectionConfig := { Endpoints := [] }

/-! ## Alternation of callbacks along a trace -/

/-- One step of the lease-signal alternation: `some false` while renewal is
running (the next lease signal must be `StopLeaseRenewal`), `some true` while it
is stopped (the next must be `StartLeaseRenewal`), `none` once two signals of
the same kind followed each other. -/
def leaseStep : Option Bool → Event → Option Bool
  | some false, Event.StopLeaseRenewal => some true
  | some true, Event.StartLeaseRenewal => some false
  | _, Event.StopLeaseRenewal => none
  | _, Event.StartLeaseRenewal => none
  | p, _ => p

/-- The lease signals of a trace strictly alternate, beginning with
`StopLeaseRenewal`, exactly when this is not `none`; `some true` then says that
the last signal was `StopLeaseRenewal`. -/
def leasePhase (tr : List Event) : Option Bool := tr.foldl leaseStep (some false)

/-- One step of the leading-callback alternation: `some false` outside a
tenure (the next leading callback must be `OnStartedLeading`), `some true`
inside one (the next must be `OnStoppedLeading`), `none` once two callbacks of
the same kind followed each other. -/
def leadStep : Option Bool → Event → Option Bool
  | some false, Event.OnStartedLeading _ => some true
  | some true, Event.OnStoppedLeading => some false
  | _, Event.OnStartedLeading _ => none
  | _, Event.OnStoppedLeading => none
  | p, _ => p

/-- The leading callbacks of a trace strictly alternate, beginning with
`OnStartedLeading`, exactly when this is not `none`; `some true` then says that
the last one was `OnStartedLeading`. -/
def leadPhase (tr : List Event) : Option Bool := tr.foldl leadStep (some false)

/-- An invocation of `OnStartedLeading`, whatever scope it is handed. -/
def Event.isOnStartedLeading : Event → Bool
  | .OnStartedLeading _ => true
  | _ => false

/-- The lease signals of a state's trace alternate, and `StopLeaseRenewal` is
one invocation ahead exactly in state Unknown. -/
structure LeaseInv (s : RunState) : Prop where
  phase : leasePhase s.trace = some (decide (s.le.CurrentState = StateUnknown))
  counts : s.trace.count Event.StopLeaseRenewal =
    s.trace.count Event.StartLeaseRenewal +
      (if s.le.CurrentState = StateUnknown then 1 else 0)

/-- The leading callbacks of a state's trace alternate, and `OnStartedLeading`
is one invocation ahead exactly in state Leader. -/
structure LeadInv (s : RunState) : Prop where
  phase : leadPhase s.trace = some (decide (s.le.CurrentState = StateLeader))
  counts : s.trace.countP Event.isOnStartedLeading =
    s.trace.count Event.OnStoppedLeading +
      (if s.le.CurrentState = StateLeader then 1 else 0)

instance (s : RunState) : Decidable (LeaseInv s) :=
  decidable_of_iff
    (leasePhase s.trace = some (decide (s.le.CurrentState = StateUnknown)) ∧
      s.trace.count Event.StopLeaseRenewal =
        s.trace.count Event.StartLeaseRenewal +
          (if s.le.CurrentState = StateUnknown then 1 else 0))
    ⟨fun h => ⟨h.1, h.2⟩, fun h => ⟨h.phase, h.counts⟩⟩

/-- An elector in the given state, as after an assignment to the exported
field `CurrentState` from outside the loop. -/
def RunState.withCurrentState (s : RunState) (v : String) : RunState :=
  { s with le := { s.le with CurrentState := v } }

/-! ## The four state names are distinct -/

@[simp]
theorem StateFollower_ne_StateCandidate : StateFollower ≠ StateCandidate := by decide

@[simp]
theorem StateFollower_ne_StateLeader : StateFollower ≠ StateLeader := by decide

@[simp]
theorem StateFollower_ne_StateUnknown : StateFollower ≠ StateUnknown := by decide

@[simp]
theorem StateCandidate_ne_StateFollower : StateCandidate ≠ StateFollower := by decide

@[simp]
theorem StateCandidate_ne_StateLeader : StateCandidate ≠ StateLeader := by decide

@[simp]
theorem StateCandidate_ne_StateUnknown : StateCandidate ≠ StateUnknown := by decide

@[simp]
theorem StateLeader_ne_StateFollower : StateLeader ≠ StateFollower := by decide

@[simp]
theorem StateLeader_ne_StateCandidate : StateLeader ≠ StateCandidate := by decide

@[simp]
theorem StateLeader_ne_StateUnknown : StateLeader ≠ StateUnknown := by decide

@[simp]
theorem StateUnknown_ne_StateFollower : StateUnknown ≠ StateFollower := by decide

@[simp]
theorem StateUnknown_ne_StateCandidate : StateUnknown ≠ StateCandidate := by decide

@[simp]
theorem StateUnknown_ne_StateLeader : StateUnknown ≠ StateLeader := by decide

/-! ## The branches of the loop body that change nothing -/

/-- Line 124: Leader with `(true, nil)` only logs. -/
theorem tick_true_Leader (s : RunState) (h : s.le.CurrentState = StateLeader) :
    tick s true none = Step.ok s := by
  simp [tick, h]

/-- With `(true, nil)`, a state that is none of the four names matches no branch. -/
theorem tick_true_other (s : RunState) (hL : s.le.CurrentState ≠ StateLeader)
    (hF : s.le.CurrentState ≠ StateFollower) (hU : s.le.CurrentState ≠ StateUnknown)
    (hC : s.le.CurrentState ≠ StateCandidate) :
    tick s true none = Step.ok s := by
  simp [tick, hL, hF, hU, hC]

/-- With `(false, nil)`, a state other than Leader and Unknown changes nothing
(line 144 only logs, and the other names match no branch). -/
theorem tick_false_other (s : RunState) (hL : s.le.CurrentState ≠ StateLeader)
    (hU : s.le.CurrentState ≠ StateUnknown) :
    tick s false none = Step.ok s := by
  simp [tick, hL, hU]

/-! ## The checker-error branch (lines 87-105) -/

/-- A tick on the checker-error branch that runs to its end leaves
`CurrentState` equal to `StateUnknown`, whatever the state and the boolean. -/
theorem tick_error_completed (s : RunState) (isLeader : Bool) (e : String)
    (h : (tick s isLeader (some e)).completed = true) :
    (tick s isLeader (some e)).state.le.CurrentState = StateUnknown := by
  by_cases hU : s.le.CurrentState = StateUnknown <;>
  by_cases hL : s.le.CurrentState = StateLeader <;>
  cases hs : s.le.LeaseCallbacks.StopLeaseRenewal <;>
  cases hx : s.leCtx <;>
  cases hc : s.leCancel <;>
  cases ho : s.le.Callbacks.OnStoppedLeading <;>
  simp [tick, callFn, callCancel, Step.andThen, RunState.emit, RunState.setCurrentState,
    Step.state, Step.completed, hU, hL, hs, hx, hc, ho] at h ⊢

/-- A tick on the checker-error branch runs to its end unless the state is
Leader, a scope exists and `leCancel` or `OnStoppedLeading` is nil. -/
theorem tick_error_completed_iff (s : RunState) (isLeader : Bool) (e : String) :
    (tick s isLeader (some e)).completed = true ↔
      ¬ (s.le.CurrentState = StateLeader ∧ s.leCtx.isSome = true ∧
          (s.leCancel = none ∨ s.le.Callbacks.OnStoppedLeading = false)) := by
  by_cases hU : s.le.CurrentState = StateUnknown <;>
  by_cases hL : s.le.CurrentState = StateLeader <;>
  cases hs : s.le.LeaseCallbacks.StopLeaseRenewal <;>
  cases hx : s.leCtx <;>
  cases hc : s.leCancel <;>
  cases ho : s.le.Callbacks.OnStoppedLeading <;>
  simp [tick, callFn, callCancel, Step.andThen, RunState.emit, RunState.setCurrentState,
    Step.state, Step.completed, hU, hL, hs, hx, hc, ho]

/-- C1, at the input where the code departs from it: with `OnStartedLeading`
registered and `OnStoppedLeading` nil, after one tick `(true, nil)` from the
constructor's state the elector is Leader with a scope; the next tick, with a
checker error, invokes `StopLeaseRenewal` and `leCancel`, then panics on the
nil `OnStoppedLeading` before line 101, so `CurrentState` is still Leader and
not Unknown. -/
theorem tick_error_nil_OnStoppedLeading :
    Run noOnStoppedLeading [Signal.Tick true none, Signal.Tick false (some "unavailable")] =
      RunResult.panicked
        { le := { noOnStoppedLeading with CurrentState := StateLeader }
          leCtx := some 0
          leCancel := some 0
          scopes := 1
          trace := [Event.SetCurrentState StateLeader, Event.WithCancel 0,
            Event.OnStartedLeading (some 0), Event.StopLeaseRenewal, Event.Cancel 0] } := by
  decide

/-! ## Transitions into Leader (lines 107-125) -/

/-- C2: a tick that ends in Leader from a state other than Leader had outcome
`(true, nil)` and started in Follower, Unknown or Candidate; and a tick with
state Leader and outcome `(true, nil)` changes nothing at all: the state stays
Leader, the locals and the trace are as before, so no callback is invoked and
no scope is canceled or created. -/
theorem tick_Leader_transition (s : RunState) (isLeader : Bool) (err : Option String) :
    ((tick s isLeader err).state.le.CurrentState = StateLeader →
      s.le.CurrentState ≠ StateLeader →
        isLeader = true ∧ err = none ∧
          (s.le.CurrentState = StateFollower ∨ s.le.CurrentState = StateUnknown ∨
            s.le.CurrentState = StateCandidate)) ∧
    (s.le.CurrentState = StateLeader → tick s true none = Step.ok s) := by
  refine ⟨?_, ?_⟩
  · intro hafter hbefore
    cases err with
    | some e =>
      exfalso
      by_cases h1 : s.le.CurrentState ≠ StateUnknown ∧ s.le.LeaseCallbacks.StopLeaseRenewal = true
      · simp [tick, h1, callFn, Step.andThen, RunState.emit, hbefore, RunState.setCurrentState,
          Step.state] at hafter
      · simp [tick, h1, callFn, Step.andThen, RunState.emit, hbefore, RunState.setCurrentState,
          Step.state] at hafter
    | none =>
      cases isLeader with
      | true =>
        refine ⟨rfl, rfl, ?_⟩
        by_contra hne
        simp [tick, hne, hbefore, Step.state] at hafter
      | false =>
        exfalso
        by_cases hU : s.le.CurrentState = StateUnknown
        · by_cases h1 : s.le.LeaseCallbacks.StartLeaseRenewal = true
          · simp [tick, hbefore, hU, h1, callFn, Step.andThen, RunState.emit,
              RunState.setCurrentState, Step.state] at hafter
          · simp [tick, hbefore, hU, h1, callFn, Step.andThen, RunState.emit,
              RunState.setCurrentState, Step.state] at hafter
        · simp [tick, hbefore, hU, Step.state] at hafter
  · intro h
    simp [tick, h, StateLeader_ne_StateFollower, StateLeader_ne_StateUnknown,
      StateLeader_ne_StateCandidate]

/-- C2 at concrete inputs: the first tick `(true, nil)` from the constructor's
state ends in Leader, and a second tick `(true, nil)` changes nothing. -/
theorem tick_Leader_transition_witness :
    (true = true ∧ (none : Option String) = none ∧
      ((Run.start allCallbacks).le.CurrentState = StateFollower ∨
        (Run.start allCallbacks).le.CurrentState = StateUnknown ∨
        (Run.start allCallbacks).le.CurrentState = StateCandidate)) ∧
    tick (tick (Run.start allCallbacks) true none).state true none =
      Step.ok (tick (Run.start allCallbacks) true none).state :=
  ⟨(tick_Leader_transition (Run.start allCallbacks) true none).1 (by decide) (by decide),
   (tick_Leader_transition (tick (Run.start allCallbacks) true none).state true none).2
     (by decide)⟩

/-! ## The Leading-Scope along a run -/

/-- The scope events of a trace extended by some events. -/
theorem scopeTrace_append (tr l : List Event) :
    scopeTrace (tr ++ l) = scopeTrace tr ++ scopeTrace l := by
  simp [scopeTrace]

/-- What a completed tick with a checker error does to the Leading-Scope. -/
theorem tick_error_ScopeEffect (s t : RunState) (isLeader : Bool) (e : String)
    (hcancel : s.leCancel = s.leCtx) (hok : tick s isLeader (some e) = Step.ok t) :
    t.le.Callbacks = s.le.Callbacks ∧ t.leCancel = t.leCtx ∧ ScopeEffect s t := by
  by_cases hL : s.le.CurrentState = StateLeader
  · cases hx : s.leCtx with
    | none =>
      rw [hx] at hcancel
      cases hs : s.le.LeaseCallbacks.StopLeaseRenewal <;>
      simp [tick, callFn, callCancel, Step.andThen, RunState.emit, RunState.setCurrentState,
        hL, hs, hx, hcancel] at hok <;>
      subst hok <;>
      exact ⟨rfl, by simp [hx, hcancel],
        ScopeEffect.leaveBare hL (by simp) rfl (by simp [hx]) hx
          (by simp [scopeTrace_append, scopeTrace, Event.isScope, Event.isWithCancel,
            Event.isCancel])⟩
    | some c =>
      rw [hx] at hcancel
      cases ho : s.le.Callbacks.OnStoppedLeading with
      | false =>
        cases hs : s.le.LeaseCallbacks.StopLeaseRenewal <;>
        simp [tick, callFn, callCancel, Step.andThen, RunState.emit, RunState.setCurrentState,
          hL, hs, hx, hcancel, ho] at hok
      | true =>
        cases hs : s.le.LeaseCallbacks.StopLeaseRenewal <;>
        simp [tick, callFn, callCancel, Step.andThen, RunState.emit, RunState.setCurrentState,
          hL, hs, hx, hcancel, ho] at hok <;>
        subst hok <;>
        exact ⟨rfl, by simp [hx, hcancel],
          ScopeEffect.leave hL (by simp) rfl (by simp [hx]) c hx ho
            (by simp [scopeTrace_append, scopeTrace, Event.isScope, Event.isWithCancel,
              Event.isCancel])⟩
  · by_cases hU : s.le.CurrentState = StateUnknown <;>
    cases hs : s.le.LeaseCallbacks.StopLeaseRenewal <;>
    simp [tick, callFn, callCancel, Step.andThen, RunState.emit, RunState.setCurrentState,
      hL, hs, hU] at hok <;>
    subst hok <;>
    exact ⟨rfl, hcancel,
      ScopeEffect.stay (by simp [hL]) rfl rfl
        (by simp [scopeTrace_append, scopeTrace, Event.isScope, Event.isWithCancel,
          Event.isCancel])⟩

/-- What a completed tick with `(true, nil)` does to the Leading-Scope. -/
theorem tick_true_ScopeEffect (s t : RunState)
    (hcancel : s.leCancel = s.leCtx) (hok : tick s true none = Step.ok t) :
    t.le.Callbacks = s.le.Callbacks ∧ t.leCancel = t.leCtx ∧ ScopeEffect s t := by
  by_cases hL : s.le.CurrentState = StateLeader
  · rw [tick_true_Leader s hL] at hok
    cases hok
    exact ⟨rfl, hcancel, ScopeEffect.stay Iff.rfl rfl rfl rfl⟩
  · by_cases hE : s.le.CurrentState = StateFollower ∨ s.le.CurrentState = StateUnknown ∨
        s.le.CurrentState = StateCandidate
    · by_cases hU : s.le.CurrentState = StateUnknown
      · cases hos : s.le.Callbacks.OnStartedLeading with
        | false =>
          cases hsl : s.le.LeaseCallbacks.StartLeaseRenewal <;>
          simp [tick, callFn, withCancel, Step.andThen, RunState.emit,
            RunState.setCurrentState, hU, hsl, hos] at hok <;>
          subst hok <;>
          exact ⟨rfl, hcancel,
            ScopeEffect.enterBare hL rfl hos rfl rfl
              (by simp [scopeTrace_append, scopeTrace, Event.isScope, Event.isWithCancel,
                Event.isCancel])⟩
        | true =>
          cases hsl : s.le.LeaseCallbacks.StartLeaseRenewal <;>
          simp [tick, callFn, withCancel, Step.andThen, RunState.emit,
            RunState.setCurrentState, hU, hsl, hos] at hok <;>
          subst hok <;>
          exact ⟨rfl, rfl,
            ScopeEffect.enter hL rfl hos rfl rfl
              (by simp [scopeTrace_append, scopeTrace, Event.isScope, Event.isWithCancel,
                Event.isCancel])⟩
      · have hE2 : s.le.CurrentState = StateFollower ∨ s.le.CurrentState = StateCandidate := by
          rcases hE with h | h | h
          · exact Or.inl h
          · exact absurd h hU
          · exact Or.inr h
        cases hos : s.le.Callbacks.OnStartedLeading with
        | false =>
          simp [tick, callFn, withCancel, Step.andThen, RunState.emit,
            RunState.setCurrentState, hU, hE2, hos] at hok
          subst hok
          exact ⟨rfl, hcancel,
            ScopeEffect.enterBare hL rfl hos rfl rfl
              (by simp [scopeTrace_append, scopeTrace, Event.isScope, Event.isWithCancel,
                Event.isCancel])⟩
        | true =>
          simp [tick, callFn, withCancel, Step.andThen, RunState.emit,
            RunState.setCurrentState, hU, hE2, hos] at hok
          subst hok
          exact ⟨rfl, rfl,
            ScopeEffect.enter hL rfl hos rfl rfl
              (by simp [scopeTrace_append, scopeTrace, Event.isScope, Event.isWithCancel,
                Event.isCancel])⟩
    · simp only [not_or] at hE
      rw [tick_true_other s hL hE.1 hE.2.1 hE.2.2] at hok
      cases hok
      exact ⟨rfl, hcancel, ScopeEffect.stay Iff.rfl rfl rfl rfl⟩

/-- What a completed tick with `(false, nil)` does to the Leading-Scope. -/
theorem tick_false_ScopeEffect (s t : RunState)
    (hcancel : s.leCancel = s.leCtx) (hok : tick s false none = Step.ok t) :
    t.le.Callbacks = s.le.Callbacks ∧ t.leCancel = t.leCtx ∧ ScopeEffect s t := by
  by_cases hL : s.le.CurrentState = StateLeader
  · cases hx : s.leCtx with
    | none =>
      rw [hx] at hcancel
      simp [tick, callFn, callCancel, Step.andThen, RunState.emit, RunState.setCurrentState,
        hL, hx, hcancel] at hok
      subst hok
      exact ⟨rfl, by simp [hx, hcancel],
        ScopeEffect.leaveBare hL (by simp) rfl (by simp [hx]) hx
          (by simp [scopeTrace_append, scopeTrace, Event.isScope, Event.isWithCancel,
            Event.isCancel])⟩
    | some c =>
      rw [hx] at hcancel
      cases ho : s.le.Callbacks.OnStoppedLeading with
      | false =>
        simp [tick, callFn, callCancel, Step.andThen, RunState.emit, RunState.setCurrentState,
          hL, hx, hcancel, ho] at hok
      | true =>
        simp [tick, callFn, callCancel, Step.andThen, RunState.emit, RunState.setCurrentState,
          hL, hx, hcancel, ho] at hok
        subst hok
        exact ⟨rfl, by simp [hx, hcancel],
          ScopeEffect.leave hL (by simp) rfl (by simp [hx]) c hx ho
            (by simp [scopeTrace_append, scopeTrace, Event.isScope, Event.isWithCancel,
              Event.isCancel])⟩
  · by_cases hU : s.le.CurrentState = StateUnknown
    · cases hsl : s.le.LeaseCallbacks.StartLeaseRenewal <;>
      simp [tick, callFn, Step.andThen, RunState.emit, RunState.setCurrentState, hU, hsl]
        at hok <;>
      subst hok <;>
      exact ⟨rfl, hcancel,
        ScopeEffect.stay (by simp [hL]) rfl rfl
          (by simp [scopeTrace_append, scopeTrace, Event.isScope, Event.isWithCancel,
            Event.isCancel])⟩
    · rw [tick_false_other s hL hU] at hok
      cases hok
      exact ⟨rfl, hcancel, ScopeEffect.stay Iff.rfl rfl rfl rfl⟩

/-- Every completed tick keeps the callbacks and the pairing of the two locals,
and has one of the five scope effects. -/
theorem tick_ScopeEffect (s t : RunState) (isLeader : Bool) (err : Option String)
    (hcancel : s.leCancel = s.leCtx) (hok : tick s isLeader err = Step.ok t) :
    t.le.Callbacks = s.le.Callbacks ∧ t.leCancel = t.leCtx ∧ ScopeEffect s t := by
  cases err with
  | some e => exact tick_error_ScopeEffect s t isLeader e hcancel hok
  | none =>
    cases isLeader with
    | true => exact tick_true_ScopeEffect s t hcancel hok
    | false => exact tick_false_ScopeEffect s t hcancel hok

/-- With `OnStoppedLeading` registered and the two locals set together, a tick
runs to its end. -/
theorem tick_completed (s : RunState) (isLeader : Bool) (err : Option String)
    (hcancel : s.leCancel = s.leCtx) (hreg : s.le.Callbacks.OnStoppedLeading = true) :
    ∃ t, tick s isLeader err = Step.ok t := by
  cases err with
  | some e =>
    have h := (tick_error_completed_iff s isLeader e).2 (by
      rintro ⟨_, hx, hc | ho⟩
      · rw [hcancel] at hc; simp [hc] at hx
      · simp [hreg] at ho)
    cases ht : tick s isLeader (some e) with
    | ok t => exact ⟨t, rfl⟩
    | panic t => simp [ht, Step.completed] at h
  | none =>
    by_cases hL : s.le.CurrentState = StateLeader
    · cases isLeader
      · cases hx : s.leCtx <;>
        simp [tick, callFn, callCancel, Step.andThen, RunState.emit, RunState.setCurrentState,
          hL, hx, hcancel, hreg]
      · exact ⟨s, tick_true_Leader s hL⟩
    · by_cases hU : s.le.CurrentState = StateUnknown
      · cases isLeader <;>
        cases hos : s.le.Callbacks.OnStartedLeading <;>
        cases hsl : s.le.LeaseCallbacks.StartLeaseRenewal <;>
        simp [tick, callFn, withCancel, Step.andThen, RunState.emit,
          RunState.setCurrentState, hU, hsl, hos]
      · cases isLeader
        · exact ⟨s, tick_false_other s hL hU⟩
        · by_cases hE : s.le.CurrentState = StateFollower ∨ s.le.CurrentState = StateCandidate
          · cases hos : s.le.Callbacks.OnStartedLeading <;>
            rcases hE with hE | hE <;>
            simp [tick, callFn, withCancel, Step.andThen, RunState.emit,
              RunState.setCurrentState, hE, hos]
          · rw [not_or] at hE
            exact ⟨s, tick_true_other s hL hE.1 hU hE.2⟩

/-- A scope event occurs as often in the scope events as in the whole trace. -/
theorem count_scopeTrace (tr : List Event) (e : Event) (he : e.isScope = true) :
    (scopeTrace tr).count e = tr.count e :=
  List.count_filter he

/-- Creations are counted on the scope events alone. -/
theorem creations_scopeTrace (tr : List Event) : creations (scopeTrace tr) = creations tr := by
  induction tr with
  | nil => rfl
  | cons e tr ih =>
    cases e <;>
    simp_all [creations, scopeTrace, List.filter_cons, List.countP_cons, Event.isScope,
      Event.isWithCancel, Event.isCancel]

/-- Cancel invocations are counted on the scope events alone. -/
theorem cancellations_scopeTrace (tr : List Event) :
    cancellations (scopeTrace tr) = cancellations tr := by
  induction tr with
  | nil => rfl
  | cons e tr ih =>
    cases e <;>
    simp_all [cancellations, scopeTrace, List.filter_cons, List.countP_cons, Event.isScope,
      Event.isWithCancel, Event.isCancel]

/-- Occurrences of a scope event after the scope events grew by `l`. -/
theorem count_of_scopeTrace_eq {tr tr2 l : List Event} (h : scopeTrace tr2 = scopeTrace tr ++ l)
    (e : Event) (he : e.isScope = true) : tr2.count e = tr.count e + l.count e := by
  rw [← count_scopeTrace tr2 e he, h, List.count_append, count_scopeTrace tr e he]

/-- Creations after the scope events grew by `l`. -/
theorem creations_of_scopeTrace_eq {tr tr2 l : List Event}
    (h : scopeTrace tr2 = scopeTrace tr ++ l) : creations tr2 = creations tr + creations l := by
  rw [← creations_scopeTrace tr2, h, ← creations_scopeTrace tr]
  simp [creations]

/-- Cancel invocations after the scope events grew by `l`. -/
theorem cancellations_of_scopeTrace_eq {tr tr2 l : List Event}
    (h : scopeTrace tr2 = scopeTrace tr ++ l) :
    cancellations tr2 = cancellations tr + cancellations l := by
  rw [← cancellations_scopeTrace tr2, h, ← cancellations_scopeTrace tr]
  simp [cancellations]

/-- Each of the five scope effects preserves the invariant. -/
theorem ScopeInv_of_ScopeEffect (s t : RunState) (h : ScopeInv s)
    (hcb : t.le.Callbacks = s.le.Callbacks) (hcancel : t.leCancel = t.leCtx)
    (heff : ScopeEffect s t) : ScopeInv t := by
  obtain ⟨h1, h2, h3, h4, h5, h6, h7, h8, h9, h10⟩ := h
  cases heff with
  | enter hs ht hreg hn hx htr =>
    have hW := fun id => count_of_scopeTrace_eq htr (Event.WithCancel id) rfl
    have hC := fun id => count_of_scopeTrace_eq htr (Event.Cancel id) rfl
    have hcr := creations_of_scopeTrace_eq htr
    have hca := cancellations_of_scopeTrace_eq htr
    simp [List.count_cons] at hW hC
    simp [creations, cancellations, Event.isWithCancel, Event.isCancel] at hcr hca
    have h10a := h10 (Or.inl hs)
    refine ⟨hcancel, ?_, ?_, ?_, ?_, ?_, ?_, ?_, ?_, ?_⟩
    · intro c hc
      rw [hx] at hc
      cases hc
      omega
    · intro hc
      rw [hx] at hc
      cases hc
    · intro _ _
      omega
    · intro hc
      rw [hcb, hreg] at hc
      cases hc
    · intro id
      rw [hW id, h6 id]
      split_ifs <;> omega
    · intro id
      rw [hC id, h7 id]
      simp only [hs, ht, false_and, not_false_eq_true, and_true, true_and, hn]
      split_ifs <;> omega
    · simp only [creations, cancellations] at *
      omega
    · intro _ _
      simp only [creations, cancellations] at *
      omega
    · intro hc
      rcases hc with hc | hc
      · exact absurd ht hc
      · omega
  | enterBare hs ht hreg hn hx htr =>
    have htr2 : scopeTrace t.trace = scopeTrace s.trace ++ [] := by simpa using htr
    have hW := fun id => count_of_scopeTrace_eq htr2 (Event.WithCancel id) rfl
    have hC := fun id => count_of_scopeTrace_eq htr2 (Event.Cancel id) rfl
    have hcr := creations_of_scopeTrace_eq htr2
    have hca := cancellations_of_scopeTrace_eq htr2
    simp at hW hC
    simp [creations, cancellations] at hcr hca
    have h10a := h10 (Or.inl hs)
    have hz := h5 hreg
    refine ⟨hcancel, ?_, ?_, ?_, ?_, ?_, ?_, ?_, ?_, ?_⟩
    · intro c hc
      rw [hx] at hc
      rw [hn]
      exact h2 c hc
    · intro _
      omega
    · intro _ hc
      rw [hcb, hreg] at hc
      cases hc
    · intro _
      omega
    · intro id
      rw [hW id, h6 id, hn]
    · intro id
      rw [hC id, h7 id, hn, hz]
      simp
    · simp only [creations, cancellations] at *
      omega
    · intro _ _
      omega
    · intro _
      simp only [creations, cancellations] at *
      omega
  | leave hs ht hn hx c hc hreg htr =>
    have hW := fun id => count_of_scopeTrace_eq htr (Event.WithCancel id) rfl
    have hC := fun id => count_of_scopeTrace_eq htr (Event.Cancel id) rfl
    have hcr := creations_of_scopeTrace_eq htr
    have hca := cancellations_of_scopeTrace_eq htr
    simp [List.count_cons] at hW hC
    simp [creations, cancellations, Event.isWithCancel, Event.isCancel] at hcr hca
    have hz := h2 c hc
    have h9a := h9 hs (by omega)
    refine ⟨hcancel, ?_, ?_, ?_, ?_, ?_, ?_, ?_, ?_, ?_⟩
    · intro d hd
      rw [hx] at hd
      rw [hn]
      exact h2 d hd
    · intro hd
      rw [hx, hc] at hd
      cases hd
    · intro hd
      exact absurd hd ht
    · intro hd
      rw [hcb] at hd
      rw [hn]
      exact h5 hd
    · intro id
      rw [hW id, h6 id, hn]
    · intro id
      rw [hC id, h7 id]
      simp only [hs, ht, false_and, not_false_eq_true, and_true, true_and, hn]
      split_ifs <;> omega
    · simp only [creations, cancellations] at *
      omega
    · intro hd
      exact absurd hd ht
    · intro _
      simp only [creations, cancellations] at *
      omega
  | leaveBare hs ht hn hx hc htr =>
    have htr2 : scopeTrace t.trace = scopeTrace s.trace ++ [] := by simpa using htr
    have hW := fun id => count_of_scopeTrace_eq htr2 (Event.WithCancel id) rfl
    have hC := fun id => count_of_scopeTrace_eq htr2 (Event.Cancel id) rfl
    have hcr := creations_of_scopeTrace_eq htr2
    have hca := cancellations_of_scopeTrace_eq htr2
    simp at hW hC
    simp [creations, cancellations] at hcr hca
    have hz := h3 hc
    have h10a := h10 (Or.inr hz)
    refine ⟨hcancel, ?_, ?_, ?_, ?_, ?_, ?_, ?_, ?_, ?_⟩
    · intro d hd
      rw [hx, hc] at hd
      cases hd
    · intro _
      omega
    · intro hd
      exact absurd hd ht
    · intro _
      omega
    · intro id
      rw [hW id, h6 id, hn]
    · intro id
      rw [hC id, h7 id, hn, hz]
      simp
    · simp only [creations, cancellations] at *
      omega
    · intro hd
      exact absurd hd ht
    · intro _
      simp only [creations, cancellations] at *
      omega
  | stay hst hn hx htr =>
    have htr2 : scopeTrace t.trace = scopeTrace s.trace ++ [] := by simpa using htr
    have hW := fun id => count_of_scopeTrace_eq htr2 (Event.WithCancel id) rfl
    have hC := fun id => count_of_scopeTrace_eq htr2 (Event.Cancel id) rfl
    have hcr := creations_of_scopeTrace_eq htr2
    have hca := cancellations_of_scopeTrace_eq htr2
    simp at hW hC
    simp [creations, cancellations] at hcr hca
    refine ⟨hcancel, ?_, ?_, ?_, ?_, ?_, ?_, ?_, ?_, ?_⟩
    · intro d hd
      rw [hx] at hd
      rw [hn]
      exact h2 d hd
    · intro hd
      rw [hx] at hd
      rw [hn]
      exact h3 hd
    · intro hd hreg
      rw [hcb] at hreg
      rw [hn]
      exact h4 (hst.2 hd) hreg
    · intro hd
      rw [hcb] at hd
      rw [hn]
      exact h5 hd
    · intro id
      rw [hW id, h6 id, hn]
    · intro id
      rw [hC id, h7 id, hn]
      simp only [hst]
    · simp only [creations, cancellations] at *
      omega
    · intro hd hpos
      have := h9 (hst.2 hd) (by omega)
      simp only [creations, cancellations] at *
      omega
    · intro hd
      have := h10 (by
        rcases hd with hd | hd
        · exact Or.inl (fun hh => hd (hst.1 hh))
        · exact Or.inr (by omega))
      simp only [creations, cancellations] at *
      omega

/-- The invariant holds when `Run` enters its loop on a new elector. -/
theorem ScopeInv_start (cb : LeaderCallbacks) (lcb : MemberLeaseCallbacks) :
    ScopeInv (Run.start (NewLeaderElector cb lcb)) := by
  refine ⟨rfl, ?_, ?_, ?_, ?_, ?_, ?_, rfl, ?_, ?_⟩ <;>
  simp [Run.start, NewLeaderElector, DefaultCurrentState, cancellations]

/-- A completed tick preserves the invariant and the callbacks. -/
theorem tick_ScopeInv (s t : RunState) (isLeader : Bool) (err : Option String)
    (h : ScopeInv s) (hok : tick s isLeader err = Step.ok t) :
    ScopeInv t ∧ t.le.Callbacks = s.le.Callbacks := by
  obtain ⟨hcb, hcancel, heff⟩ := tick_ScopeEffect s t isLeader err h.cancel_eq hok
  exact ⟨ScopeInv_of_ScopeEffect s t h hcb hcancel heff, hcb⟩

/-- The invariant and the callbacks are preserved along any number of ticks. -/
theorem runLoop_ticks_ScopeInv (outcomes : List (Bool × Option String)) :
    ∀ s t : RunState, ScopeInv s → runLoop s (ticksOf outcomes) = RunResult.waiting t →
      ScopeInv t ∧ t.le.Callbacks = s.le.Callbacks := by
  induction outcomes with
  | nil =>
    intro s t h hrun
    simp [ticksOf, runLoop] at hrun
    subst hrun
    exact ⟨h, rfl⟩
  | cons o outcomes ih =>
    intro s t h hrun
    simp only [ticksOf, List.map_cons, runLoop] at hrun
    cases hstep : tick s o.1 o.2 with
    | ok u =>
      rw [hstep] at hrun
      obtain ⟨hu, hcb⟩ := tick_ScopeInv s u o.1 o.2 h hstep
      obtain ⟨ht, hcb2⟩ := ih u t hu hrun
      exact ⟨ht, hcb2.trans hcb⟩
    | panic u =>
      rw [hstep] at hrun
      cases hrun

/-- With `OnStoppedLeading` registered, any number of ticks run to their end
and leave the loop waiting in its `select`. -/
theorem runLoop_ticks_waiting (outcomes : List (Bool × Option String)) :
    ∀ s : RunState, ScopeInv s → s.le.Callbacks.OnStoppedLeading = true →
      ∃ t, runLoop s (ticksOf outcomes) = RunResult.waiting t := by
  induction outcomes with
  | nil =>
    intro s _ _
    exact ⟨s, rfl⟩
  | cons o outcomes ih =>
    intro s h hreg
    obtain ⟨u, hstep⟩ := tick_completed s o.1 o.2 h.cancel_eq hreg
    obtain ⟨hu, hcb⟩ := tick_ScopeInv s u o.1 o.2 h hstep
    obtain ⟨t, ht⟩ := ih u hu (by rw [hcb]; exact hreg)
    refine ⟨t, ?_⟩
    simp only [ticksOf, List.map_cons, runLoop, hstep]
    exact ht

/-- The shutdown signal after some ticks runs the shutdown branch in the state
the ticks ended in. -/
theorem runLoop_ticks_Done (outcomes : List (Bool × Option String)) :
    ∀ s t : RunState, runLoop s (ticksOf outcomes) = RunResult.waiting t →
      runLoop s (ticksOf outcomes ++ [Signal.Done]) = shutdown t := by
  induction outcomes with
  | nil =>
    intro s t hrun
    simp [ticksOf, runLoop] at hrun
    subst hrun
    rfl
  | cons o outcomes ih =>
    intro s t hrun
    simp only [ticksOf, List.map_cons, runLoop, List.cons_append] at hrun ⊢
    cases hstep : tick s o.1 o.2 with
    | ok u =>
      rw [hstep] at hrun
      exact ih u t hrun
    | panic u =>
      rw [hstep] at hrun
      cases hrun

/-! ## Nil callbacks (lines 97-100 and 134-137) -/

/-- C5, at the input where the code departs from it: with `OnStartedLeading`
registered and `OnStoppedLeading` nil, the ticks `(true, nil)`, `(false, nil)`
from the constructor's state reach line 136 with `leCtx` non-nil, where the
unguarded call of the nil `OnStoppedLeading` panics, after `CurrentState` was
set to Follower and `leCancel` was invoked. -/
theorem Run_nil_OnStoppedLeading_panics :
    Run noOnStoppedLeading [Signal.Tick true none, Signal.Tick false none] =
      RunResult.panicked
        { le := { noOnStoppedLeading with CurrentState := StateFollower }
          leCtx := some 0
          leCancel := some 0
          scopes := 1
          trace := [Event.SetCurrentState StateLeader, Event.WithCancel 0,
            Event.OnStartedLeading (some 0), Event.SetCurrentState StateFollower,
            Event.Cancel 0] } := by
  decide

/-! ## Lease-renewal signals -/

/-- On every tick that runs to its end, a registered `StopLeaseRenewal` is
invoked exactly once when the tick ends in Unknown from another state, and not
at all otherwise. -/
theorem tick_StopLeaseRenewal_completed (s : RunState) (isLeader : Bool) (err : Option String)
    (hreg : s.le.LeaseCallbacks.StopLeaseRenewal = true)
    (hdone : (tick s isLeader err).completed = true) :
    (tickEvents s isLeader err).count Event.StopLeaseRenewal =
      if (tick s isLeader err).state.le.CurrentState = StateUnknown ∧
          s.le.CurrentState ≠ StateUnknown then 1 else 0 := by
  cases err with
  | some e =>
    by_cases hU : s.le.CurrentState = StateUnknown <;>
    by_cases hL : s.le.CurrentState = StateLeader <;>
    cases hx : s.leCtx <;>
    cases hc : s.leCancel <;>
    cases ho : s.le.Callbacks.OnStoppedLeading <;>
    simp [tickEvents, tick, callFn, callCancel, Step.andThen, RunState.emit,
      RunState.setCurrentState, Step.state, Step.completed, hU, hL, hreg, hx, hc, ho] at hdone ⊢
  | none =>
    by_cases hL : s.le.CurrentState = StateLeader
    · cases isLeader
      · cases hx : s.leCtx <;>
        cases hc : s.leCancel <;>
        cases ho : s.le.Callbacks.OnStoppedLeading <;>
        simp [tickEvents, tick, callFn, callCancel, Step.andThen, RunState.emit,
          RunState.setCurrentState, Step.state, Step.completed, hL, hx, hc, ho] at hdone ⊢
      · simp [tickEvents, tick_true_Leader s hL, Step.state, hL]
    · by_cases hU : s.le.CurrentState = StateUnknown
      · cases isLeader <;>
        cases hos : s.le.Callbacks.OnStartedLeading <;>
        cases hsl : s.le.LeaseCallbacks.StartLeaseRenewal <;>
        simp [tickEvents, tick, callFn, withCancel, Step.andThen, RunState.emit,
          RunState.setCurrentState, Step.state, hU, hsl, hos]
      · cases isLeader
        · simp [tickEvents, tick_false_other s hL hU, Step.state, hU]
        · by_cases hE : s.le.CurrentState = StateFollower ∨ s.le.CurrentState = StateCandidate
          · cases hos : s.le.Callbacks.OnStartedLeading <;>
            rcases hE with hE | hE <;>
            simp [tickEvents, tick, callFn, withCancel, Step.andThen, RunState.emit,
              RunState.setCurrentState, Step.state, hE, hos]
          · rw [not_or] at hE
            simp [tickEvents, tick_true_other s hL hE.1 hU hE.2, Step.state, hU]

/-- C6, at the input where the code departs from it: all callbacks but
`OnStoppedLeading` registered, state Leader with a scope, checker error. The
tick invokes `StopLeaseRenewal` once and `leCancel`, then panics on the nil
`OnStoppedLeading`, so `StopLeaseRenewal` was invoked although `CurrentState`
is still Leader and not Unknown. -/
theorem tick_StopLeaseRenewal_nil_OnStoppedLeading :
    leadingNoOnStoppedLeading.le.LeaseCallbacks.StopLeaseRenewal = true ∧
    leadingNoOnStoppedLeading.le.CurrentState = StateLeader ∧
    tickEvents leadingNoOnStoppedLeading false (some "unavailable") =
      [Event.StopLeaseRenewal, Event.Cancel 0] ∧
    (tick leadingNoOnStoppedLeading false (some "unavailable")).completed = false ∧
    (tick leadingNoOnStoppedLeading false (some "unavailable")).state.le.CurrentState =
      StateLeader := by
  decide

/-- C7 as stated fails: in state Unknown a tick with a checker error does not
invoke the registered `StartLeaseRenewal`. -/
theorem tick_error_Unknown_no_StartLeaseRenewal :
    unknownState.le.LeaseCallbacks.StartLeaseRenewal = true ∧
    unknownState.le.CurrentState = StateUnknown ∧
    (tickEvents unknownState false (some "unavailable")).count Event.StartLeaseRenewal = 0 ∧
    ¬ ((tickEvents unknownState false (some "unavailable")).count Event.StartLeaseRenewal = 1 ↔
        unknownState.le.CurrentState = StateUnknown) := by
  decide

/-- C7, amended: with `StartLeaseRenewal` registered, for every state and every
checker outcome, one tick invokes `StartLeaseRenewal` exactly once when the
state before the tick is Unknown and the checker returned no error, and not at
all otherwise. -/
theorem tick_StartLeaseRenewal (s : RunState) (isLeader : Bool) (err : Option String)
    (hreg : s.le.LeaseCallbacks.StartLeaseRenewal = true) :
    (tickEvents s isLeader err).count Event.StartLeaseRenewal =
      if s.le.CurrentState = StateUnknown ∧ err = none then 1 else 0 := by
  cases err with
  | some e =>
    by_cases hU : s.le.CurrentState = StateUnknown <;>
    by_cases hL : s.le.CurrentState = StateLeader <;>
    cases hs : s.le.LeaseCallbacks.StopLeaseRenewal <;>
    cases hx : s.leCtx <;>
    cases hc : s.leCancel <;>
    cases ho : s.le.Callbacks.OnStoppedLeading <;>
    simp [tickEvents, tick, callFn, callCancel, Step.andThen, RunState.emit,
      RunState.setCurrentState, Step.state, Step.completed, hU, hL, hreg, hs, hx, hc, ho]
  | none =>
    by_cases hL : s.le.CurrentState = StateLeader
    · cases isLeader
      · cases hx : s.leCtx <;>
        cases hc : s.leCancel <;>
        cases ho : s.le.Callbacks.OnStoppedLeading <;>
        simp [tickEvents, tick, callFn, callCancel, Step.andThen, RunState.emit,
          RunState.setCurrentState, Step.state, hL, hx, hc, ho]
      · simp [tickEvents, tick_true_Leader s hL, Step.state, hL]
    · by_cases hU : s.le.CurrentState = StateUnknown
      · cases isLeader <;>
        cases hos : s.le.Callbacks.OnStartedLeading <;>
        simp [tickEvents, tick, callFn, withCancel, Step.andThen, RunState.emit,
          RunState.setCurrentState, Step.state, hU, hreg, hos]
      · cases isLeader
        · simp [tickEvents, tick_false_other s hL hU, Step.state, hU]
        · by_cases hE : s.le.CurrentState = StateFollower ∨ s.le.CurrentState = StateCandidate
          · cases hos : s.le.Callbacks.OnStartedLeading <;>
            rcases hE with hE | hE <;>
            simp [tickEvents, tick, callFn, withCancel, Step.andThen, RunState.emit,
              RunState.setCurrentState, Step.state, hE, hos]
          · rw [not_or] at hE
            simp [tickEvents, tick_true_other s hL hE.1 hU hE.2, Step.state, hU]

/-- C7, amended, at a concrete input: from Unknown the tick `(false, nil)`
invokes `StartLeaseRenewal` once. -/
theorem tick_StartLeaseRenewal_witness :
    (tickEvents unknownState false none).count Event.StartLeaseRenewal =
      if unknownState.le.CurrentState = StateUnknown ∧ (none : Option String) = none
        then 1 else 0 :=
  tick_StartLeaseRenewal unknownState false none (by decide)

/-! ## The scenario of the specification -/

/-- C9: with all four callbacks registered, from the constructor's state
Follower the outcomes `(true, nil)`, `(false, err)`, `(false, nil)` lead to
Leader, Unknown, Follower; the callbacks invoked are `OnStartedLeading`, then
`StopLeaseRenewal`, `OnStoppedLeading`, then `StartLeaseRenewal`; the shutdown
signal invokes no callback and `Run` returns nil. -/
theorem Run_scenario (e : String) :
    allCallbacks.CurrentState = StateFollower ∧
    (∃ s, Run allCallbacks [Signal.Tick true none] = RunResult.waiting s ∧
      s.le.CurrentState = StateLeader ∧
      callbackTrace s.trace = [Event.OnStartedLeading (some 0)]) ∧
    (∃ s, Run allCallbacks [Signal.Tick true none, Signal.Tick false (some e)] =
        RunResult.waiting s ∧
      s.le.CurrentState = StateUnknown ∧
      callbackTrace s.trace = [Event.OnStartedLeading (some 0), Event.StopLeaseRenewal,
        Event.OnStoppedLeading]) ∧
    (∃ s, Run allCallbacks [Signal.Tick true none, Signal.Tick false (some e),
        Signal.Tick false none] = RunResult.waiting s ∧
      s.le.CurrentState = StateFollower ∧
      stateTrace s.trace = [StateLeader, StateUnknown, StateFollower] ∧
      callbackTrace s.trace = [Event.OnStartedLeading (some 0), Event.StopLeaseRenewal,
        Event.OnStoppedLeading, Event.StartLeaseRenewal]) ∧
    (∃ s, Run allCallbacks [Signal.Tick true none, Signal.Tick false (some e),
        Signal.Tick false none, Signal.Done] = RunResult.returned s none ∧
      s.le.CurrentState = StateFollower ∧
      stateTrace s.trace = [StateLeader, StateUnknown, StateFollower] ∧
      callbackTrace s.trace = [Event.OnStartedLeading (some 0), Event.StopLeaseRenewal,
        Event.OnStoppedLeading, Event.StartLeaseRenewal]) := by
  refine ⟨rfl, ⟨_, rfl, rfl, rfl⟩, ⟨_, rfl, rfl, rfl⟩, ⟨_, rfl, rfl, rfl, rfl⟩,
    ⟨_, rfl, rfl, rfl, rfl⟩⟩

/-! ## Order of actions on the checker-error branch -/

/-- C10: on a tick with a checker error in which both `StopLeaseRenewal` and
`OnStoppedLeading` are invoked, the tick does exactly this, in this order:
`StopLeaseRenewal`, the cancel of the Leading-Scope, `OnStoppedLeading`, the
assignment of Unknown to `CurrentState`; and it runs to its end. -/
theorem tick_error_order (s : RunState) (isLeader : Bool) (e : String)
    (hstop : Event.StopLeaseRenewal ∈ tickEvents s isLeader (some e))
    (hstopped : Event.OnStoppedLeading ∈ tickEvents s isLeader (some e)) :
    ∃ c, s.leCancel = some c ∧
      tickEvents s isLeader (some e) =
        [Event.StopLeaseRenewal, Event.Cancel c, Event.OnStoppedLeading,
          Event.SetCurrentState StateUnknown] ∧
      (tick s isLeader (some e)).completed = true ∧
      (tick s isLeader (some e)).state.le.CurrentState = StateUnknown := by
  by_cases hU : s.le.CurrentState = StateUnknown <;>
  by_cases hL : s.le.CurrentState = StateLeader <;>
  cases hs : s.le.LeaseCallbacks.StopLeaseRenewal <;>
  cases hx : s.leCtx <;>
  cases hc : s.leCancel <;>
  cases ho : s.le.Callbacks.OnStoppedLeading <;>
  simp [tickEvents, tick, callFn, callCancel, Step.andThen, RunState.emit,
    RunState.setCurrentState, Step.state, Step.completed, hU, hL, hs, hx, hc, ho]
    at hstop hstopped ⊢

/-- C10 at a concrete input: the elector leading with scope 0, all callbacks
registered, and a checker error. -/
theorem tick_error_order_witness :
    ∃ c, leadingState.leCancel = some c ∧
      tickEvents leadingState true (some "unavailable") =
        [Event.StopLeaseRenewal, Event.Cancel c, Event.OnStoppedLeading,
          Event.SetCurrentState StateUnknown] ∧
      (tick leadingState true (some "unavailable")).completed = true ∧
      (tick leadingState true (some "unavailable")).state.le.CurrentState = StateUnknown :=
  tick_error_order leadingState true "unavailable" (by decide) (by decide)

/-! ## Creation and cancellation of the Leading-Scope -/

/-- With the two locals set together, the shutdown branch invokes the cancel
function of the scope in `leCtx`, if there is one, and returns nil. -/
theorem shutdown_returned (s : RunState) (h : s.leCancel = s.leCtx) :
    ∃ t, shutdown s = RunResult.returned t none ∧ t.le = s.le ∧
      t.trace = s.trace ++ (match s.leCtx with
        | some c => [Event.Cancel c]
        | none => []) := by
  cases hx : s.leCtx with
  | none =>
    rw [hx] at h
    exact ⟨s, by simp [shutdown, h], rfl, by simp⟩
  | some c =>
    rw [hx] at h
    exact ⟨s.emit (Event.Cancel c), by simp [shutdown, callCancel, h], rfl, rfl⟩

/-- C3 as stated fails twice: after a tenure has ended the shutdown branch
invokes the cancel function of scope 0 a second time, so one creation faces
two cancel invocations in state Follower; and with `OnStartedLeading` not
registered the elector is Leader with no scope created. -/
theorem Run_scope_counts_unbalanced :
    (Run allCallbacks [Signal.Tick true none, Signal.Tick false none, Signal.Done]).state.le.CurrentState
      = StateFollower ∧
    creations (Run allCallbacks
      [Signal.Tick true none, Signal.Tick false none, Signal.Done]).state.trace = 1 ∧
    cancellations (Run allCallbacks
      [Signal.Tick true none, Signal.Tick false none, Signal.Done]).state.trace = 2 ∧
    ¬ ScopeCountsBalanced (Run allCallbacks
      [Signal.Tick true none, Signal.Tick false none, Signal.Done]).state ∧
    leadingNoOnStartedLeading.le.CurrentState = StateLeader ∧
    creations leadingNoOnStartedLeading.trace = 0 ∧
    ¬ ScopeCountsBalanced leadingNoOnStartedLeading := by
  decide

/-- C3, amended: with `OnStartedLeading` and `OnStoppedLeading` registered,
every sequence of ticks from the constructor's state runs to its end in a state
where creations and cancel invocations are equal outside Leader and differ by
one in Leader, every scope but the one of a current tenure having had its
cancel function invoked exactly once. The shutdown signal then returns nil
after invoking the cancel function of the latest scope once more, whenever a
scope was ever created: for a shutdown in Leader this is that scope's first
cancel, after a tenure has ended it is a second invocation on the same scope. -/
theorem Run_scope_counts (cb : LeaderCallbacks) (lcb : MemberLeaseCallbacks)
    (outcomes : List (Bool × Option String))
    (hstart : cb.OnStartedLeading = true) (hstop : cb.OnStoppedLeading = true) :
    ∃ s, Run (NewLeaderElector cb lcb) (ticksOf outcomes) = RunResult.waiting s ∧
      ScopeCountsBalanced s ∧
      (∀ id, id < creations s.trace →
        s.trace.count (Event.Cancel id) =
          if s.le.CurrentState = StateLeader ∧ id + 1 = creations s.trace then 0 else 1) ∧
      ∃ t, Run (NewLeaderElector cb lcb) (ticksOf outcomes ++ [Signal.Done]) =
          RunResult.returned t none ∧
        t.le.CurrentState = s.le.CurrentState ∧
        creations t.trace = creations s.trace ∧
        cancellations t.trace =
          cancellations s.trace + (if creations s.trace = 0 then 0 else 1) ∧
        (∀ id, id < creations t.trace →
          t.trace.count (Event.Cancel id) =
            if s.le.CurrentState ≠ StateLeader ∧ id + 1 = creations s.trace then 2 else 1) := by
  have h0 := ScopeInv_start cb lcb
  obtain ⟨s, hrun⟩ := runLoop_ticks_waiting outcomes (Run.start (NewLeaderElector cb lcb)) h0 hstop
  obtain ⟨hs, hcb⟩ := runLoop_ticks_ScopeInv outcomes _ s h0 hrun
  have hreg : s.le.Callbacks.OnStartedLeading = true := by rw [hcb]; exact hstart
  obtain ⟨h1, h2, h3, h4, h5, h6, h7, h8, h9, h10⟩ := hs
  obtain ⟨t, hshut, hle, htr⟩ := shutdown_returned s h1
  refine ⟨s, hrun, ⟨?_, ?_⟩, ?_, t, ?_, by rw [hle], ?_, ?_, ?_⟩
  · intro hL
    rw [h8, h10 (Or.inl hL)]
  · intro hL
    have := h9 hL (h4 hL hreg)
    omega
  · intro id hid
    rw [h7 id, h8]
    rw [h8] at hid
    split_ifs <;> simp_all
  · exact (runLoop_ticks_Done outcomes _ s hrun).trans hshut
  · rw [htr]
    cases hx : s.leCtx <;> simp [creations, Event.isWithCancel]
  · rw [htr, h8]
    cases hx : s.leCtx with
    | none => simp [h3 hx]
    | some c =>
      have := h2 c hx
      have hne : s.scopes ≠ 0 := by omega
      simp [cancellations, Event.isCancel, hne]
  · intro id hid
    rw [htr]
    rw [htr] at hid
    cases hx : s.leCtx with
    | none =>
      rw [hx] at hid
      simp only [List.append_nil, h8, h3 hx] at hid
      omega
    | some c =>
      have hc := h2 c hx
      rw [hx] at hid
      simp only [creations] at h8
      simp [creations, Event.isWithCancel, h8] at hid
      simp only [List.count_append, List.count_cons, List.count_nil, h7 id, creations, h8]
      by_cases hL : s.le.CurrentState = StateLeader <;>
      by_cases hid2 : id + 1 = s.scopes <;>
      by_cases hid3 : c = id <;>
      simp [hL, hid2, hid3] <;> omega

/-- C3, amended, at a concrete input: the ticks `(true, nil)`, `(false, nil)`
with all four callbacks registered. -/
theorem Run_scope_counts_witness :
    ∃ s, Run (NewLeaderElector ⟨true, true⟩ ⟨true, true⟩)
        (ticksOf [(true, none), (false, none)]) = RunResult.waiting s ∧
      ScopeCountsBalanced s ∧
      (∀ id, id < creations s.trace →
        s.trace.count (Event.Cancel id) =
          if s.le.CurrentState = StateLeader ∧ id + 1 = creations s.trace then 0 else 1) ∧
      ∃ t, Run (NewLeaderElector ⟨true, true⟩ ⟨true, true⟩)
          (ticksOf [(true, none), (false, none)] ++ [Signal.Done]) =
          RunResult.returned t none ∧
        t.le.CurrentState = s.le.CurrentState ∧
        creations t.trace = creations s.trace ∧
        cancellations t.trace =
          cancellations s.trace + (if creations s.trace = 0 then 0 else 1) ∧
        (∀ id, id < creations t.trace →
          t.trace.count (Event.Cancel id) =
            if s.le.CurrentState ≠ StateLeader ∧ id + 1 = creations s.trace then 2 else 1) :=
  Run_scope_counts ⟨true, true⟩ ⟨true, true⟩ [(true, none), (false, none)] rfl rfl

/-- In a state of a run, the active scope is the one in `leCtx` during a
tenure, and there is none otherwise. -/
theorem ScopeInv_activeScope (s : RunState) (h : ScopeInv s) (id : Nat) :
    activeScope s.trace id ↔ s.le.CurrentState = StateLeader ∧ s.leCtx = some id := by
  obtain ⟨h1, h2, h3, h4, h5, h6, h7, h8, h9, h10⟩ := h
  have hW : Event.WithCancel id ∈ s.trace ↔ id < s.scopes := by
    rw [← List.count_pos_iff, h6 id]
    split_ifs <;> simp [*]
  have hC : Event.Cancel id ∉ s.trace ↔
      ¬ (id < s.scopes ∧ ¬ (s.le.CurrentState = StateLeader ∧ id + 1 = s.scopes)) := by
    rw [← List.count_eq_zero, h7 id]
    split_ifs with hcond
    · simp [hcond]
    · simp only [true_iff]
      exact hcond
  unfold activeScope
  rw [hW, hC]
  constructor
  · rintro ⟨hlt, hn⟩
    have hLn : s.le.CurrentState = StateLeader ∧ id + 1 = s.scopes := by
      by_contra hcon
      exact hn ⟨hlt, hcon⟩
    refine ⟨hLn.1, ?_⟩
    cases hx : s.leCtx with
    | none =>
      have := h3 hx
      omega
    | some c =>
      have := h2 c hx
      have hc : c = id := by omega
      rw [hc]
  · rintro ⟨hL, hx⟩
    have := h2 id hx
    refine ⟨by omega, ?_⟩
    rintro ⟨_, hn⟩
    exact hn ⟨hL, this⟩

/-- C4 as stated fails: with `OnStartedLeading` not registered, the tick
`(true, nil)` from the constructor's state makes the elector Leader without
creating a scope, so no active scope exists in state Leader. -/
theorem Run_Leader_without_scope :
    Run noOnStartedLeading [Signal.Tick true none] =
      RunResult.waiting
        { le := { noOnStartedLeading with CurrentState := StateLeader }
          leCtx := none
          leCancel := none
          scopes := 0
          trace := [Event.SetCurrentState StateLeader] } ∧
    ¬ ((∃ id, activeScope (Run noOnStartedLeading [Signal.Tick true none]).state.trace id) ↔
      (Run noOnStartedLeading [Signal.Tick true none]).state.le.CurrentState = StateLeader) := by
  refine ⟨by decide, ?_⟩
  intro h
  obtain ⟨id, hid, _⟩ := h.2 (by decide)
  have hmem : (Event.WithCancel id) ∈ [Event.SetCurrentState StateLeader] := hid
  simp at hmem

/-- C4, amended: with `OnStoppedLeading` registered, every sequence of ticks
from the constructor's state runs to its end in a state where an active
Leading-Scope exists if and only if `CurrentState` is Leader and
`OnStartedLeading` is registered; the active scope is then the one in `leCtx`.
A scope is created on a transition into Leader only with `OnStartedLeading`
registered. -/
theorem Run_active_scope (cb : LeaderCallbacks) (lcb : MemberLeaseCallbacks)
    (outcomes : List (Bool × Option String)) (hstop : cb.OnStoppedLeading = true) :
    ∃ s, Run (NewLeaderElector cb lcb) (ticksOf outcomes) = RunResult.waiting s ∧
      ((∃ id, activeScope s.trace id) ↔
        (s.le.CurrentState = StateLeader ∧ cb.OnStartedLeading = true)) ∧
      (∀ id, activeScope s.trace id ↔ s.le.CurrentState = StateLeader ∧ s.leCtx = some id) ∧
      (cb.OnStartedLeading = false → creations s.trace = 0) := by
  have h0 := ScopeInv_start cb lcb
  obtain ⟨s, hrun⟩ := runLoop_ticks_waiting outcomes (Run.start (NewLeaderElector cb lcb)) h0 hstop
  obtain ⟨hs, hcb⟩ := runLoop_ticks_ScopeInv outcomes _ s h0 hrun
  have hcb2 : s.le.Callbacks.OnStartedLeading = cb.OnStartedLeading := by rw [hcb]; rfl
  refine ⟨s, hrun, ?_, ScopeInv_activeScope s hs, ?_⟩
  · constructor
    · rintro ⟨id, hid⟩
      obtain ⟨hL, hx⟩ := (ScopeInv_activeScope s hs id).1 hid
      refine ⟨hL, ?_⟩
      cases hreg : cb.OnStartedLeading with
      | true => rfl
      | false =>
        have hz := hs.unregistered (by rw [hcb2]; exact hreg)
        have := hs.ctx_some id hx
        omega
    · rintro ⟨hL, hreg⟩
      have hpos := hs.leader_scope hL (by rw [hcb2]; exact hreg)
      cases hx : s.leCtx with
      | none =>
        have := hs.ctx_none hx
        omega
      | some c => exact ⟨c, (ScopeInv_activeScope s hs c).2 ⟨hL, hx⟩⟩
  · intro hreg
    rw [hs.creations_eq]
    exact hs.unregistered (by rw [hcb2]; exact hreg)

/-- C4, amended, at a concrete input: one tick `(true, nil)` with all four
callbacks registered. -/
theorem Run_active_scope_witness :
    ∃ s, Run (NewLeaderElector ⟨true, true⟩ ⟨true, true⟩) (ticksOf [(true, none)]) =
        RunResult.waiting s ∧
      ((∃ id, activeScope s.trace id) ↔
        (s.le.CurrentState = StateLeader ∧
          (⟨true, true⟩ : LeaderCallbacks).OnStartedLeading = true)) ∧
      (∀ id, activeScope s.trace id ↔ s.le.CurrentState = StateLeader ∧ s.leCtx = some id) ∧
      ((⟨true, true⟩ : LeaderCallbacks).OnStartedLeading = false → creations s.trace = 0) :=
  Run_active_scope ⟨true, true⟩ ⟨true, true⟩ [(true, none)] rfl

/-- With `OnStoppedLeading` registered and the two locals set together, a tick
that leaves Leader invokes `OnStoppedLeading` once when `leCtx` is non-nil and
not at all when it is nil. -/
theorem tick_OnStoppedLeading (s : RunState) (isLeader : Bool) (err : Option String)
    (hreg : s.le.Callbacks.OnStoppedLeading = true) (hcancel : s.leCancel = s.leCtx)
    (hL : s.le.CurrentState = StateLeader)
    (hafter : (tick s isLeader err).state.le.CurrentState ≠ StateLeader) :
    (tickEvents s isLeader err).count Event.OnStoppedLeading =
      if s.leCtx.isSome = true then 1 else 0 := by
  cases err with
  | some e =>
    cases hx : s.leCtx <;>
    cases hs : s.le.LeaseCallbacks.StopLeaseRenewal <;>
    simp [tickEvents, tick, callFn, callCancel, Step.andThen, RunState.emit,
      RunState.setCurrentState, Step.state, hL, hreg, hx, hcancel, hs]
  | none =>
    cases isLeader with
    | true =>
      rw [tick_true_Leader s hL] at hafter
      exact absurd hL hafter
    | false =>
      cases hx : s.leCtx <;>
      simp [tickEvents, tick, callFn, callCancel, Step.andThen, RunState.emit,
        RunState.setCurrentState, Step.state, hL, hreg, hx, hcancel]

/-- C8 as stated fails: with `OnStoppedLeading` registered and `OnStartedLeading`
not, the elector becomes Leader without a scope; the tick that ends the tenure,
by `(false, nil)` or by a checker error, finds `leCtx` nil and does not invoke
`OnStoppedLeading`. -/
theorem tick_leave_Leader_no_OnStoppedLeading :
    leadingNoOnStartedLeading.le.Callbacks.OnStoppedLeading = true ∧
    leadingNoOnStartedLeading.le.CurrentState = StateLeader ∧
    (tick leadingNoOnStartedLeading false none).state.le.CurrentState = StateFollower ∧
    tickEvents leadingNoOnStartedLeading false none = [Event.SetCurrentState StateFollower] ∧
    (tickEvents leadingNoOnStartedLeading false none).count Event.OnStoppedLeading = 0 ∧
    (tick leadingNoOnStartedLeading false (some "unavailable")).state.le.CurrentState =
      StateUnknown ∧
    (tickEvents leadingNoOnStartedLeading false (some "unavailable")).count
      Event.OnStoppedLeading = 0 := by
  decide

/-- C8, amended: with `OnStoppedLeading` registered, on every tick of a run
from the constructor's state whose state before is Leader and whose state
after is not, `OnStoppedLeading` is invoked exactly once if `OnStartedLeading`
is registered as well, and not at all if it is not; the lease callbacks make
no difference. -/
theorem Run_OnStoppedLeading (cb : LeaderCallbacks) (lcb : MemberLeaseCallbacks)
    (outcomes : List (Bool × Option String)) (s : RunState) (isLeader : Bool)
    (err : Option String) (hstop : cb.OnStoppedLeading = true)
    (hrun : Run (NewLeaderElector cb lcb) (ticksOf outcomes) = RunResult.waiting s)
    (hL : s.le.CurrentState = StateLeader)
    (hafter : (tick s isLeader err).state.le.CurrentState ≠ StateLeader) :
    (tickEvents s isLeader err).count Event.OnStoppedLeading =
      if cb.OnStartedLeading = true then 1 else 0 := by
  have h0 := ScopeInv_start cb lcb
  obtain ⟨hs, hcb⟩ := runLoop_ticks_ScopeInv outcomes _ s h0 hrun
  have hcb1 : s.le.Callbacks.OnStartedLeading = cb.OnStartedLeading := by rw [hcb]; rfl
  have hcb2 : s.le.Callbacks.OnStoppedLeading = true := by rw [hcb]; exact hstop
  rw [tick_OnStoppedLeading s isLeader err hcb2 hs.cancel_eq hL hafter]
  cases hreg : cb.OnStartedLeading with
  | true =>
    have hpos := hs.leader_scope hL (by rw [hcb1]; exact hreg)
    cases hx : s.leCtx with
    | none =>
      have := hs.ctx_none hx
      omega
    | some c => simp
  | false =>
    have hz := hs.unregistered (by rw [hcb1]; exact hreg)
    cases hx : s.leCtx with
    | none => simp
    | some c =>
      have := hs.ctx_some c hx
      omega

/-- C8, amended, at a concrete input: all four callbacks registered, the ticks
`(true, nil)` then `(false, nil)`. -/
theorem Run_OnStoppedLeading_witness :
    (tickEvents leadingState false none).count Event.OnStoppedLeading =
      if (⟨true, true⟩ : LeaderCallbacks).OnStartedLeading = true then 1 else 0 :=
  Run_OnStoppedLeading ⟨true, true⟩ ⟨true, true⟩ [(true, none)] leadingState false none rfl
    (by decide) (by decide) (by decide)

/-! ## The result of the leadership check (lines 180-187) -/

/-- C11 as stated fails at the member identifier 0: when the status response
reports member 0 and leader 0, the comparison of line 180 comes first and
`IsLeader` returns `(true, nil)`, not the no-leader error. -/
theorem IsLeader_member_zero_leader_zero :
    NoLeaderState = 0 ∧
    (IsLeader (etcdAnswering 0 0) oneEndpoint).1 = (true, none) := by
  decide

/-- C11, amended: for every successful status response whose leader identifier
is `NoLeaderState`, `IsLeader` returns `false` with the no-leader `EtcdError`
for every member identifier other than 0, and `(true, nil)` for the member
identifier 0, where line 180 finds member and leader equal. -/
theorem IsLeader_no_leader (etcd : Etcd) (cfg : EtcdConnectionConfig) (endPoint : String)
    (rest : List String) (response : StatusResponse)
    (hclient : etcd.NewMaintenance cfg = Except.ok ())
    (hep : cfg.Endpoints = endPoint :: rest)
    (hstatus : etcd.Status endPoint = Except.ok response)
    (hleader : response.Leader = NoLeaderState) :
    (IsLeader etcd cfg).1 =
      if response.Header.MemberId = NoLeaderState then (true, none)
      else (false, some (Error.EtcdError noLeaderMessage)) := by
  simp [IsLeader, hclient, hep, hstatus, hleader]

/-- C11, amended, at a concrete input: member 5, leader 0. -/
theorem IsLeader_no_leader_witness :
    (IsLeader (etcdAnswering 5 0) oneEndpoint).1 =
      if (5 : Nat) = NoLeaderState then (true, none)
      else (false, some (Error.EtcdError noLeaderMessage)) :=
  IsLeader_no_leader (etcdAnswering 5 0) oneEndpoint "http://127.0.0.1:2379" []
    { Header := { MemberId := 5 }, Leader := 0 } rfl rfl rfl rfl

/-- C12: for every successful status response in which the member identifier
equals the leader identifier, `IsLeader` returns `(true, nil)`. -/
theorem IsLeader_member_is_leader (etcd : Etcd) (cfg : EtcdConnectionConfig)
    (endPoint : String) (rest : List String) (response : StatusResponse)
    (hclient : etcd.NewMaintenance cfg = Except.ok ())
    (hep : cfg.Endpoints = endPoint :: rest)
    (hstatus : etcd.Status endPoint = Except.ok response)
    (heq : response.Header.MemberId = response.Leader) :
    (IsLeader etcd cfg).1 = (true, none) := by
  simp [IsLeader, hclient, hep, hstatus, heq]

/-- C12 at a concrete input: member 5, leader 5. -/
theorem IsLeader_member_is_leader_witness :
    (IsLeader (etcdAnswering 5 5) oneEndpoint).1 = (true, none) :=
  IsLeader_member_is_leader (etcdAnswering 5 5) oneEndpoint "http://127.0.0.1:2379" []
    { Header := { MemberId := 5 }, Leader := 5 } rfl rfl rfl rfl

/-- C13: for every successful status response whose leader identifier is not
`NoLeaderState` and differs from the member identifier, `IsLeader` returns
`(false, nil)`. -/
theorem IsLeader_other_leader (etcd : Etcd) (cfg : EtcdConnectionConfig)
    (endPoint : String) (rest : List String) (response : StatusResponse)
    (hclient : etcd.NewMaintenance cfg = Except.ok ())
    (hep : cfg.Endpoints = endPoint :: rest)
    (hstatus : etcd.Status endPoint = Except.ok response)
    (hleader : response.Leader ≠ NoLeaderState)
    (hne : response.Leader ≠ response.Header.MemberId) :
    (IsLeader etcd cfg).1 = (false, none) := by
  have hne2 : response.Header.MemberId ≠ response.Leader := fun h => hne h.symm
  simp [IsLeader, hclient, hep, hstatus, hleader, hne2]

/-- C13 at a concrete input: member 5, leader 7. -/
theorem IsLeader_other_leader_witness :
    (IsLeader (etcdAnswering 5 7) oneEndpoint).1 = (false, none) :=
  IsLeader_other_leader (etcdAnswering 5 7) oneEndpoint "http://127.0.0.1:2379" []
    { Header := { MemberId := 5 }, Leader := 7 } rfl rfl rfl (by decide) (by decide)

/-! ## The failures of the leadership check (lines 156-178) -/

/-- C14 as stated fails twice: with no endpoint and a failing client
construction `IsLeader` returns the `EtcdError` of line 159, not the plain
configuration error; and with a client construction that succeeds the factory
and the client are made, and the client closed, before the plain error is
returned. -/
theorem IsLeader_no_endpoint_client_first :
    noEndpoint.Endpoints = [] ∧
    IsLeader (etcdNoClient (Error.client "dial failed")) noEndpoint =
      ((false, some (Error.EtcdError (maintenanceContext ++ "dial failed"))),
        [Call.NewFactory, Call.NewMaintenance]) ∧
    IsLeader (etcdAnswering 5 5) noEndpoint =
      ((false, some (Error.Errorf endpointsMessage)),
        [Call.NewFactory, Call.NewMaintenance, Call.Close]) := by
  decide

/-- C14, amended: for every connection configuration whose endpoint list is
empty, `IsLeader` first makes the factory and the maintenance client; when the
construction fails it returns `false` with the `EtcdError` that carries the
failure, and when it succeeds it closes the client and returns `false` with
the plain configuration error. In both cases no status query is issued. -/
theorem IsLeader_no_endpoint (etcd : Etcd) (cfg : EtcdConnectionConfig)
    (hep : cfg.Endpoints = []) :
    IsLeader etcd cfg =
      (match etcd.NewMaintenance cfg with
        | Except.error err =>
          ((false, some (Error.EtcdError (maintenanceContext ++ etcd.format err))),
            [Call.NewFactory, Call.NewMaintenance])
        | Except.ok _ =>
          ((false, some (Error.Errorf endpointsMessage)),
            [Call.NewFactory, Call.NewMaintenance, Call.Close])) ∧
    ∀ endPoint, Call.Status endPoint ∉ (IsLeader etcd cfg).2 := by
  cases h : etcd.NewMaintenance cfg <;> simp [IsLeader, h, hep]

/-- C14, amended, at a concrete input: no endpoint, client construction
succeeding. -/
theorem IsLeader_no_endpoint_witness :
    IsLeader (etcdAnswering 5 5) noEndpoint =
      (match (etcdAnswering 5 5).NewMaintenance noEndpoint with
        | Except.error err =>
          ((false, some (Error.EtcdError (maintenanceContext ++ (etcdAnswering 5 5).format err))),
            [Call.NewFactory, Call.NewMaintenance])
        | Except.ok _ =>
          ((false, some (Error.Errorf endpointsMessage)),
            [Call.NewFactory, Call.NewMaintenance, Call.Close])) ∧
    ∀ endPoint, Call.Status endPoint ∉ (IsLeader (etcdAnswering 5 5) noEndpoint).2 :=
  IsLeader_no_endpoint (etcdAnswering 5 5) noEndpoint rfl

/-- C15 as stated fails for the status query: its error is returned as it is,
without any context around it. -/
theorem IsLeader_status_error_unchanged :
    (IsLeader (etcdNoStatus (Error.client "deadline exceeded")) oneEndpoint).1 =
      (false, some (Error.client "deadline exceeded")) := by
  decide

/-- C15, amended: a client construction failure with error `e` makes `IsLeader`
return `false` with a new `EtcdError` whose message is the context of line 160
followed by the text of `e`; a failure of the status query with error `e`
makes it return `false` with `e` itself. -/
theorem IsLeader_failure (etcd : Etcd) (cfg : EtcdConnectionConfig) (e : Error)
    (endPoint : String) (rest : List String) :
    (etcd.NewMaintenance cfg = Except.error e →
      (IsLeader etcd cfg).1 =
        (false, some (Error.EtcdError (maintenanceContext ++ etcd.format e)))) ∧
    (etcd.NewMaintenance cfg = Except.ok () → cfg.Endpoints = endPoint :: rest →
      etcd.Status endPoint = Except.error e →
        (IsLeader etcd cfg).1 = (false, some e)) := by
  constructor
  · intro h
    simp [IsLeader, h]
  · intro h1 h2 h3
    simp [IsLeader, h1, h2, h3]

/-- C15, amended, at concrete inputs: a failing client construction and a
failing status query. -/
theorem IsLeader_failure_witness :
    (IsLeader (etcdNoClient (Error.client "dial failed")) oneEndpoint).1 =
      (false, some (Error.EtcdError (maintenanceContext ++
        (etcdNoClient (Error.client "dial failed")).format (Error.client "dial failed")))) ∧
    (IsLeader (etcdNoStatus (Error.client "deadline exceeded")) oneEndpoint).1 =
      (false, some (Error.client "deadline exceeded")) :=
  ⟨(IsLeader_failure (etcdNoClient (Error.client "dial failed")) oneEndpoint
      (Error.client "dial failed") "http://127.0.0.1:2379" []).1 rfl,
   (IsLeader_failure (etcdNoStatus (Error.client "deadline exceeded")) oneEndpoint
      (Error.client "deadline exceeded") "http://127.0.0.1:2379" []).2 rfl rfl rfl⟩

/-! ## Lease signals and leading callbacks along a run -/

/-- A completed tick with a checker error keeps the lease signals alternating. -/
theorem tick_error_LeaseInv (s t : RunState) (isLeader : Bool) (e : String)
    (hstop : s.le.LeaseCallbacks.StopLeaseRenewal = true)
    (h : LeaseInv s) (hok : tick s isLeader (some e) = Step.ok t) :
    LeaseInv t ∧ t.le.LeaseCallbacks = s.le.LeaseCallbacks := by
  obtain ⟨hph, hcnt⟩ := h
  simp only [leasePhase] at hph
  by_cases hL : s.le.CurrentState = StateLeader
  · simp only [hL, StateLeader_ne_StateUnknown, decide_False, if_false, add_zero] at hph hcnt
    cases hx : s.leCtx <;>
    cases hc : s.leCancel <;>
    cases ho : s.le.Callbacks.OnStoppedLeading <;>
    simp [tick, callFn, callCancel, Step.andThen, RunState.emit, RunState.setCurrentState,
      hL, hstop, hx, hc, ho] at hok <;>
    subst hok <;>
    exact ⟨⟨by simp [leasePhase, List.foldl_append, hph, leaseStep],
      by simp [List.count_cons, hcnt]⟩, rfl⟩
  · by_cases hU : s.le.CurrentState = StateUnknown
    · simp only [hU, decide_True, if_true] at hph hcnt
      simp [tick, callFn, callCancel, Step.andThen, RunState.emit, RunState.setCurrentState,
        hL, hstop, hU] at hok
      subst hok
      exact ⟨⟨by simp [leasePhase, List.foldl_append, hph, leaseStep],
        by simp [List.count_cons, hcnt]⟩, rfl⟩
    · simp only [hU, decide_False, if_false, add_zero] at hph hcnt
      simp [tick, callFn, callCancel, Step.andThen, RunState.emit, RunState.setCurrentState,
        hL, hstop, hU] at hok
      subst hok
      exact ⟨⟨by simp [leasePhase, List.foldl_append, hph, leaseStep],
        by simp [List.count_cons, hcnt]⟩, rfl⟩

/-- A completed tick with `(true, nil)` keeps the lease signals alternating. -/
theorem tick_true_LeaseInv (s t : RunState)
    (hstart : s.le.LeaseCallbacks.StartLeaseRenewal = true)
    (h : LeaseInv s) (hok : tick s true none = Step.ok t) :
    LeaseInv t ∧ t.le.LeaseCallbacks = s.le.LeaseCallbacks := by
  by_cases hL : s.le.CurrentState = StateLeader
  · rw [tick_true_Leader s hL] at hok
    cases hok
    exact ⟨h, rfl⟩
  · by_cases hU : s.le.CurrentState = StateUnknown
    · obtain ⟨hph, hcnt⟩ := h
      simp only [leasePhase, hU, decide_True, if_true] at hph hcnt
      cases hos : s.le.Callbacks.OnStartedLeading <;>
      simp [tick, callFn, withCancel, Step.andThen, RunState.emit, RunState.setCurrentState,
        hU, hstart, hos] at hok <;>
      subst hok <;>
      exact ⟨⟨by simp [leasePhase, List.foldl_append, hph, leaseStep],
        by simp [List.count_cons, hcnt]⟩, rfl⟩
    · by_cases hE : s.le.CurrentState = StateFollower ∨ s.le.CurrentState = StateCandidate
      · obtain ⟨hph, hcnt⟩ := h
        simp only [leasePhase, hU, decide_False, if_false, add_zero] at hph hcnt
        cases hos : s.le.Callbacks.OnStartedLeading <;>
        simp [tick, callFn, withCancel, Step.andThen, RunState.emit, RunState.setCurrentState,
          hU, hE, hos] at hok <;>
        subst hok <;>
        exact ⟨⟨by simp [leasePhase, List.foldl_append, hph, leaseStep],
          by simp [List.count_cons, hcnt]⟩, rfl⟩
      · rw [not_or] at hE
        rw [tick_true_other s hL hE.1 hU hE.2] at hok
        cases hok
        exact ⟨h, rfl⟩

/-- A completed tick with `(false, nil)` keeps the lease signals alternating. -/
theorem tick_false_LeaseInv (s t : RunState)
    (hstart : s.le.LeaseCallbacks.StartLeaseRenewal = true)
    (h : LeaseInv s) (hok : tick s false none = Step.ok t) :
    LeaseInv t ∧ t.le.LeaseCallbacks = s.le.LeaseCallbacks := by
  by_cases hL : s.le.CurrentState = StateLeader
  · obtain ⟨hph, hcnt⟩ := h
    simp only [leasePhase, hL, StateLeader_ne_StateUnknown, decide_False, if_false, add_zero]
      at hph hcnt
    cases hx : s.leCtx <;>
    cases hc : s.leCancel <;>
    cases ho : s.le.Callbacks.OnStoppedLeading <;>
    simp [tick, callFn, callCancel, Step.andThen, RunState.emit, RunState.setCurrentState,
      hL, hx, hc, ho] at hok <;>
    subst hok <;>
    exact ⟨⟨by simp [leasePhase, List.foldl_append, hph, leaseStep],
      by simp [List.count_cons, hcnt]⟩, rfl⟩
  · by_cases hU : s.le.CurrentState = StateUnknown
    · obtain ⟨hph, hcnt⟩ := h
      simp only [leasePhase, hU, decide_True, if_true] at hph hcnt
      simp [tick, callFn, Step.andThen, RunState.emit, RunState.setCurrentState, hU, hstart]
        at hok
      subst hok
      exact ⟨⟨by simp [leasePhase, List.foldl_append, hph, leaseStep],
        by simp [List.count_cons, hcnt]⟩, rfl⟩
    · rw [tick_false_other s hL hU] at hok
      cases hok
      exact ⟨h, rfl⟩

/-- With both lease callbacks registered, a completed tick keeps the lease
signals alternating, `StopLeaseRenewal` ahead exactly in state Unknown. -/
theorem tick_LeaseInv (s t : RunState) (isLeader : Bool) (err : Option String)
    (hstop : s.le.LeaseCallbacks.StopLeaseRenewal = true)
    (hstart : s.le.LeaseCallbacks.StartLeaseRenewal = true)
    (h : LeaseInv s) (hok : tick s isLeader err = Step.ok t) :
    LeaseInv t ∧ t.le.LeaseCallbacks = s.le.LeaseCallbacks := by
  cases err with
  | some e => exact tick_error_LeaseInv s t isLeader e hstop h hok
  | none =>
    cases isLeader with
    | true => exact tick_true_LeaseInv s t hstart h hok
    | false => exact tick_false_LeaseInv s t hstart h hok

/-- No lease signal has been given when `Run` enters its loop on a new elector. -/
theorem LeaseInv_start (cb : LeaderCallbacks) (lcb : MemberLeaseCallbacks) :
    LeaseInv (Run.start (NewLeaderElector cb lcb)) := by
  constructor <;> simp [Run.start, NewLeaderElector, DefaultCurrentState, leasePhase]

/-- With both lease callbacks registered, the lease signals alternate along any
number of ticks that run to their end. -/
theorem runLoop_ticks_LeaseInv (outcomes : List (Bool × Option String)) :
    ∀ s t : RunState, LeaseInv s → s.le.LeaseCallbacks.StopLeaseRenewal = true →
      s.le.LeaseCallbacks.StartLeaseRenewal = true →
      runLoop s (ticksOf outcomes) = RunResult.waiting t → LeaseInv t := by
  induction outcomes with
  | nil =>
    intro s t h _ _ hrun
    simp [ticksOf, runLoop] at hrun
    subst hrun
    exact h
  | cons o outcomes ih =>
    intro s t h hstop hstart hrun
    simp only [ticksOf, List.map_cons, runLoop] at hrun
    cases hstep : tick s o.1 o.2 with
    | ok u =>
      rw [hstep] at hrun
      obtain ⟨hu, hcb⟩ := tick_LeaseInv s u o.1 o.2 hstop hstart h hstep
      exact ih u t hu (by rw [hcb]; exact hstop) (by rw [hcb]; exact hstart) hrun
    | panic u =>
      rw [hstep] at hrun
      cases hrun

/-- In a state of a run with `OnStartedLeading` registered, a Leader has its
scope in both locals. -/
theorem ScopeInv_leading (s : RunState) (h : ScopeInv s)
    (hreg : s.le.Callbacks.OnStartedLeading = true) (hL : s.le.CurrentState = StateLeader) :
    ∃ c, s.leCtx = some c ∧ s.leCancel = some c := by
  have hpos := h.leader_scope hL hreg
  cases hx : s.leCtx with
  | none =>
    have := h.ctx_none hx
    omega
  | some c => exact ⟨c, rfl, by rw [h.cancel_eq, hx]⟩

/-- A completed tick with a checker error keeps the leading callbacks alternating. -/
theorem tick_error_LeadInv (s t : RunState) (isLeader : Bool) (e : String)
    (hinv : ScopeInv s) (hreg : s.le.Callbacks.OnStartedLeading = true)
    (h : LeadInv s) (hok : tick s isLeader (some e) = Step.ok t) : LeadInv t := by
  obtain ⟨hph, hcnt⟩ := h
  by_cases hL : s.le.CurrentState = StateLeader
  · obtain ⟨c, hx, hc⟩ := ScopeInv_leading s hinv hreg hL
    simp only [leadPhase, hL, decide_True, if_true] at hph hcnt
    cases ho : s.le.Callbacks.OnStoppedLeading <;>
    cases hs : s.le.LeaseCallbacks.StopLeaseRenewal <;>
    simp [tick, callFn, callCancel, Step.andThen, RunState.emit, RunState.setCurrentState,
      hL, hs, hx, hc, ho] at hok <;>
    subst hok <;>
    exact ⟨by simp [leadPhase, List.foldl_append, hph, leadStep],
      by simp [List.count_cons, Event.isOnStartedLeading, hcnt]⟩
  · simp only [leadPhase, hL, decide_False, if_false, add_zero] at hph hcnt
    by_cases hU : s.le.CurrentState = StateUnknown <;>
    cases hs : s.le.LeaseCallbacks.StopLeaseRenewal <;>
    simp [tick, callFn, callCancel, Step.andThen, RunState.emit, RunState.setCurrentState,
      hL, hs, hU] at hok <;>
    subst hok <;>
    exact ⟨by simp [leadPhase, List.foldl_append, hph, leadStep],
      by simp [List.count_cons, Event.isOnStartedLeading, hcnt]⟩

/-- A completed tick with `(true, nil)` keeps the leading callbacks alternating. -/
theorem tick_true_LeadInv (s t : RunState)
    (hreg : s.le.Callbacks.OnStartedLeading = true)
    (h : LeadInv s) (hok : tick s true none = Step.ok t) : LeadInv t := by
  by_cases hL : s.le.CurrentState = StateLeader
  · rw [tick_true_Leader s hL] at hok
    cases hok
    exact h
  · by_cases hU : s.le.CurrentState = StateUnknown
    · obtain ⟨hph, hcnt⟩ := h
      simp only [leadPhase, hL, decide_False, if_false, add_zero] at hph hcnt
      cases hsl : s.le.LeaseCallbacks.StartLeaseRenewal <;>
      simp [tick, callFn, withCancel, Step.andThen, RunState.emit, RunState.setCurrentState,
        hU, hsl, hreg] at hok <;>
      subst hok <;>
      exact ⟨by simp [leadPhase, List.foldl_append, hph, leadStep],
        by simp [List.count_cons, Event.isOnStartedLeading, hcnt]⟩
    · by_cases hE : s.le.CurrentState = StateFollower ∨ s.le.CurrentState = StateCandidate
      · obtain ⟨hph, hcnt⟩ := h
        simp only [leadPhase, hL, decide_False, if_false, add_zero] at hph hcnt
        simp [tick, callFn, withCancel, Step.andThen, RunState.emit, RunState.setCurrentState,
          hU, hE, hreg] at hok
        subst hok
        exact ⟨by simp [leadPhase, List.foldl_append, hph, leadStep],
          by simp [List.count_cons, Event.isOnStartedLeading, hcnt]⟩
      · rw [not_or] at hE
        rw [tick_true_other s hL hE.1 hU hE.2] at hok
        cases hok
        exact h

/-- A completed tick with `(false, nil)` keeps the leading callbacks alternating. -/
theorem tick_false_LeadInv (s t : RunState)
    (hinv : ScopeInv s) (hreg : s.le.Callbacks.OnStartedLeading = true)
    (h : LeadInv s) (hok : tick s false none = Step.ok t) : LeadInv t := by
  by_cases hL : s.le.CurrentState = StateLeader
  · obtain ⟨c, hx, hc⟩ := ScopeInv_leading s hinv hreg hL
    obtain ⟨hph, hcnt⟩ := h
    simp only [leadPhase, hL, decide_True, if_true] at hph hcnt
    cases ho : s.le.Callbacks.OnStoppedLeading with
    | false =>
      simp [tick, callFn, callCancel, Step.andThen, RunState.emit, RunState.setCurrentState,
        hL, hx, hc, ho] at hok
    | true =>
      simp [tick, callFn, callCancel, Step.andThen, RunState.emit, RunState.setCurrentState,
        hL, hx, hc, ho] at hok
      subst hok
      exact ⟨by simp [leadPhase, List.foldl_append, hph, leadStep],
        by simp [List.count_cons, Event.isOnStartedLeading, hcnt]⟩
  · by_cases hU : s.le.CurrentState = StateUnknown
    · obtain ⟨hph, hcnt⟩ := h
      simp only [leadPhase, hL, decide_False, if_false, add_zero] at hph hcnt
      cases hsl : s.le.LeaseCallbacks.StartLeaseRenewal <;>
      simp [tick, callFn, Step.andThen, RunState.emit, RunState.setCurrentState, hU, hsl]
        at hok <;>
      subst hok <;>
      exact ⟨by simp [leadPhase, List.foldl_append, hph, leadStep],
        by simp [List.count_cons, Event.isOnStartedLeading, hcnt]⟩
    · rw [tick_false_other s hL hU] at hok
      cases hok
      exact h

/-- With `OnStartedLeading` registered, a completed tick in a state of a run
keeps the leading callbacks alternating, `OnStartedLeading` ahead exactly in
state Leader. -/
theorem tick_LeadInv (s t : RunState) (isLeader : Bool) (err : Option String)
    (hinv : ScopeInv s) (hreg : s.le.Callbacks.OnStartedLeading = true)
    (h : LeadInv s) (hok : tick s isLeader err = Step.ok t) : LeadInv t := by
  cases err with
  | some e => exact tick_error_LeadInv s t isLeader e hinv hreg h hok
  | none =>
    cases isLeader with
    | true => exact tick_true_LeadInv s t hreg h hok
    | false => exact tick_false_LeadInv s t hinv hreg h hok

/-- No leading callback has been invoked when `Run` enters its loop on a new
elector. -/
theorem LeadInv_start (cb : LeaderCallbacks) (lcb : MemberLeaseCallbacks) :
    LeadInv (Run.start (NewLeaderElector cb lcb)) := by
  constructor <;> simp [Run.start, NewLeaderElector, DefaultCurrentState, leadPhase]

/-- With `OnStartedLeading` registered, the leading callbacks alternate along
any number of ticks that run to their end. -/
theorem runLoop_ticks_LeadInv (outcomes : List (Bool × Option String)) :
    ∀ s t : RunState, ScopeInv s → LeadInv s → s.le.Callbacks.OnStartedLeading = true →
      runLoop s (ticksOf outcomes) = RunResult.waiting t → LeadInv t := by
  induction outcomes with
  | nil =>
    intro s t _ h _ hrun
    simp [ticksOf, runLoop] at hrun
    subst hrun
    exact h
  | cons o outcomes ih =>
    intro s t hinv h hreg hrun
    simp only [ticksOf, List.map_cons, runLoop] at hrun
    cases hstep : tick s o.1 o.2 with
    | ok u =>
      rw [hstep] at hrun
      obtain ⟨hu, hcb⟩ := tick_ScopeInv s u o.1 o.2 hinv hstep
      exact ih u t hu (tick_LeadInv s u o.1 o.2 hinv hreg h hstep) (by rw [hcb]; exact hreg) hrun
    | panic u =>
      rw [hstep] at hrun
      cases hrun

/-! ## Checker errors and the end of the loop (lines 77-105) -/

/-- The shutdown branch leaves the elector as it is. -/
theorem shutdown_le (s : RunState) : (shutdown s).state.le = s.le := by
  cases hc : s.leCancel <;> simp [shutdown, callCancel, RunState.emit, RunResult.state, hc]

/-- With `OnStoppedLeading` registered, every sequence of checker outcomes,
errors included, leaves the loop waiting for its next signal, and the
shutdown signal after it makes `Run` return nil. -/
theorem Run_returns_nil (cb : LeaderCallbacks) (lcb : MemberLeaseCallbacks)
    (outcomes : List (Bool × Option String)) (hstop : cb.OnStoppedLeading = true) :
    (∃ s, Run (NewLeaderElector cb lcb) (ticksOf outcomes) = RunResult.waiting s) ∧
    ∃ t, Run (NewLeaderElector cb lcb) (ticksOf outcomes ++ [Signal.Done]) =
      RunResult.returned t none := by
  have h0 := ScopeInv_start cb lcb
  obtain ⟨s, hrun⟩ := runLoop_ticks_waiting outcomes (Run.start (NewLeaderElector cb lcb)) h0 hstop
  obtain ⟨hs, _⟩ := runLoop_ticks_ScopeInv outcomes _ s h0 hrun
  obtain ⟨t, hshut, _, _⟩ := shutdown_returned s hs.cancel_eq
  exact ⟨⟨s, hrun⟩, t, (runLoop_ticks_Done outcomes _ s hrun).trans hshut⟩

/-- C16, at the input where the code departs from it: with `OnStartedLeading`
registered and `OnStoppedLeading` nil, the outcomes `(true, nil)`,
`(false, err)`, `(false, nil)` followed by the shutdown signal do not make
`Run` return nil. The checker error of the second tick reaches the nil call of
line 99 and the loop ends there in a panic: the third tick and the shutdown
branch are never performed. -/
theorem Run_error_ends_loop :
    Run noOnStoppedLeading [Signal.Tick true none, Signal.Tick false (some "unavailable"),
        Signal.Tick false none, Signal.Done] =
      RunResult.panicked
        { le := { noOnStoppedLeading with CurrentState := StateLeader }
          leCtx := some 0
          leCancel := some 0
          scopes := 1
          trace := [Event.SetCurrentState StateLeader, Event.WithCancel 0,
            Event.OnStartedLeading (some 0), Event.StopLeaseRenewal, Event.Cancel 0] } := by
  decide

/-! ## The states the loop produces -/

/-- One tick ends in the state it started in, or in Leader, Follower or
Unknown, also when it panics. -/
theorem tick_state_cases (s : RunState) (isLeader : Bool) (err : Option String) :
    (tick s isLeader err).state.le.CurrentState = s.le.CurrentState ∨
    (tick s isLeader err).state.le.CurrentState = StateLeader ∨
    (tick s isLeader err).state.le.CurrentState = StateFollower ∨
    (tick s isLeader err).state.le.CurrentState = StateUnknown := by
  cases err with
  | some e =>
    by_cases hL : s.le.CurrentState = StateLeader
    · cases hs : s.le.LeaseCallbacks.StopLeaseRenewal <;>
      cases hx : s.leCtx <;>
      cases hc : s.leCancel <;>
      cases ho : s.le.Callbacks.OnStoppedLeading <;>
      simp [tick, callFn, callCancel, Step.andThen, RunState.emit, RunState.setCurrentState,
        Step.state, hL, hs, hx, hc, ho]
    · by_cases hU : s.le.CurrentState = StateUnknown <;>
      cases hs : s.le.LeaseCallbacks.StopLeaseRenewal <;>
      simp [tick, callFn, callCancel, Step.andThen, RunState.emit, RunState.setCurrentState,
        Step.state, hL, hs, hU]
  | none =>
    by_cases hL : s.le.CurrentState = StateLeader
    · cases isLeader
      · cases hx : s.leCtx <;>
        cases hc : s.leCancel <;>
        cases ho : s.le.Callbacks.OnStoppedLeading <;>
        simp [tick, callFn, callCancel, Step.andThen, RunState.emit, RunState.setCurrentState,
          Step.state, hL, hx, hc, ho]
      · simp [tick_true_Leader s hL, Step.state]
    · by_cases hU : s.le.CurrentState = StateUnknown
      · cases isLeader <;>
        cases hos : s.le.Callbacks.OnStartedLeading <;>
        cases hsl : s.le.LeaseCallbacks.StartLeaseRenewal <;>
        simp [tick, callFn, withCancel, Step.andThen, RunState.emit, RunState.setCurrentState,
          Step.state, hU, hsl, hos]
      · cases isLeader
        · simp [tick_false_other s hL hU, Step.state]
        · by_cases hE : s.le.CurrentState = StateFollower ∨ s.le.CurrentState = StateCandidate
          · cases hos : s.le.Callbacks.OnStartedLeading <;>
            rcases hE with hE | hE <;>
            simp [tick, callFn, withCancel, Step.andThen, RunState.emit,
              RunState.setCurrentState, Step.state, hE, hos]
          · rw [not_or] at hE
            simp [tick_true_other s hL hE.1 hU hE.2, Step.state]

/-- Whatever signals the loop receives, it is in the state it started in, or in
Leader, Follower or Unknown. -/
theorem runLoop_state_cases (signals : List Signal) :
    ∀ s : RunState,
      (runLoop s signals).state.le.CurrentState = s.le.CurrentState ∨
      (runLoop s signals).state.le.CurrentState = StateLeader ∨
      (runLoop s signals).state.le.CurrentState = StateFollower ∨
      (runLoop s signals).state.le.CurrentState = StateUnknown := by
  induction signals with
  | nil =>
    intro s
    exact Or.inl rfl
  | cons sig signals ih =>
    intro s
    cases sig with
    | Done =>
      simp only [runLoop]
      rw [shutdown_le]
      exact Or.inl rfl
    | Tick isLeader err =>
      have hstep := tick_state_cases s isLeader err
      simp only [runLoop]
      cases ht : tick s isLeader err with
      | ok u =>
        rw [ht] at hstep
        simp only [Step.state] at hstep
        rcases ih u with h | h | h | h
        · rw [h]
          exact hstep
        · exact Or.inr (Or.inl h)
        · exact Or.inr (Or.inr (Or.inl h))
        · exact Or.inr (Or.inr (Or.inr h))
      | panic u =>
        rw [ht] at hstep
        exact hstep

/-- C17: the constructor's elector is in state Follower; whatever signals `Run`
receives from there, the elector is in Follower, Leader or Unknown, never in
Candidate; and a tick whose state before is not Candidate does not end in
Candidate. -/
theorem Run_never_Candidate (cb : LeaderCallbacks) (lcb : MemberLeaseCallbacks)
    (signals : List Signal) (s : RunState) (isLeader : Bool) (err : Option String) :
    (NewLeaderElector cb lcb).CurrentState = StateFollower ∧
    ((Run (NewLeaderElector cb lcb) signals).state.le.CurrentState = StateFollower ∨
      (Run (NewLeaderElector cb lcb) signals).state.le.CurrentState = StateLeader ∨
      (Run (NewLeaderElector cb lcb) signals).state.le.CurrentState = StateUnknown) ∧
    (Run (NewLeaderElector cb lcb) signals).state.le.CurrentState ≠ StateCandidate ∧
    (s.le.CurrentState ≠ StateCandidate →
      (tick s isLeader err).state.le.CurrentState ≠ StateCandidate) := by
  have hrun : (Run (NewLeaderElector cb lcb) signals).state.le.CurrentState = StateFollower ∨
      (Run (NewLeaderElector cb lcb) signals).state.le.CurrentState = StateLeader ∨
      (Run (NewLeaderElector cb lcb) signals).state.le.CurrentState = StateUnknown := by
    rcases runLoop_state_cases signals (Run.start (NewLeaderElector cb lcb)) with h | h | h | h
    · exact Or.inl h
    · exact Or.inr (Or.inl h)
    · exact Or.inl h
    · exact Or.inr (Or.inr h)
  refine ⟨rfl, hrun, ?_, ?_⟩
  · rcases hrun with h | h | h <;> rw [h] <;> simp
  · intro hne
    rcases tick_state_cases s isLeader err with h | h | h | h <;> rw [h]
    · exact hne
    · simp
    · simp
    · simp

/-- C17 at a concrete input: the tick `(false, nil)` from the constructor's
state does not end in Candidate. -/
theorem Run_never_Candidate_witness :
    (tick (Run.start allCallbacks) false none).state.le.CurrentState ≠ StateCandidate :=
  (Run_never_Candidate ⟨true, true⟩ ⟨true, true⟩ [] (Run.start allCallbacks) false none).2.2.2
    (by decide)

/-- C18: in state Candidate, the tick `(true, nil)` does exactly what it does
from Follower, state, locals and trace alike: it runs to its end in Leader;
and the tick `(false, nil)` changes nothing, so the state stays Candidate, no
callback is invoked and no scope is created or canceled. -/
theorem tick_Candidate (s : RunState) (hC : s.le.CurrentState = StateCandidate) :
    tick s true none = tick (s.withCurrentState StateFollower) true none ∧
    (tick s true none).completed = true ∧
    (tick s true none).state.le.CurrentState = StateLeader ∧
    tick s false none = Step.ok s := by
  refine ⟨?_, ?_, ?_, ?_⟩
  · cases hos : s.le.Callbacks.OnStartedLeading <;>
    simp [tick, callFn, withCancel, Step.andThen, RunState.emit, RunState.setCurrentState,
      RunState.withCurrentState, hC, hos]
  · cases hos : s.le.Callbacks.OnStartedLeading <;>
    simp [tick, callFn, withCancel, Step.andThen, RunState.emit, RunState.setCurrentState,
      Step.completed, hC, hos]
  · cases hos : s.le.Callbacks.OnStartedLeading <;>
    simp [tick, callFn, withCancel, Step.andThen, RunState.emit, RunState.setCurrentState,
      Step.state, hC, hos]
  · exact tick_false_other s (by rw [hC]; simp) (by rw [hC]; simp)

/-- C18 at a concrete input: a new elector with all four callbacks, set to
Candidate from outside. -/
theorem tick_Candidate_witness :
    tick ((Run.start allCallbacks).withCurrentState StateCandidate) true none =
      tick (((Run.start allCallbacks).withCurrentState StateCandidate).withCurrentState
        StateFollower) true none ∧
    (tick ((Run.start allCallbacks).withCurrentState StateCandidate) true none).completed =
      true ∧
    (tick ((Run.start allCallbacks).withCurrentState StateCandidate)
      true none).state.le.CurrentState = StateLeader ∧
    tick ((Run.start allCallbacks).withCurrentState StateCandidate) false none =
      Step.ok ((Run.start allCallbacks).withCurrentState StateCandidate) :=
  tick_Candidate ((Run.start allCallbacks).withCurrentState StateCandidate) (by decide)

/-! ## Alternation of the lease signals -/

/-- With both lease callbacks registered, after any number of ticks from the
constructor's state that ran to their end the lease signals have strictly
alternated, beginning with `StopLeaseRenewal`, and `StopLeaseRenewal` is one
invocation ahead exactly in state Unknown; with `OnStoppedLeading` registered
every sequence of ticks runs to its end. -/
theorem Run_lease_alternation (cb : LeaderCallbacks) (lcb : MemberLeaseCallbacks)
    (outcomes : List (Bool × Option String))
    (hstopL : lcb.StopLeaseRenewal = true) (hstartL : lcb.StartLeaseRenewal = true) :
    (∀ s, Run (NewLeaderElector cb lcb) (ticksOf outcomes) = RunResult.waiting s →
      LeaseInv s) ∧
    (cb.OnStoppedLeading = true →
      ∃ s, Run (NewLeaderElector cb lcb) (ticksOf outcomes) = RunResult.waiting s ∧
        LeaseInv s) := by
  have hall : ∀ s, Run (NewLeaderElector cb lcb) (ticksOf outcomes) = RunResult.waiting s →
      LeaseInv s := fun s hrun =>
    runLoop_ticks_LeaseInv outcomes (Run.start (NewLeaderElector cb lcb)) s
      (LeaseInv_start cb lcb) hstopL hstartL hrun
  refine ⟨hall, fun hstop => ?_⟩
  obtain ⟨s, hrun⟩ := runLoop_ticks_waiting outcomes (Run.start (NewLeaderElector cb lcb))
    (ScopeInv_start cb lcb) hstop
  exact ⟨s, hrun, hall s hrun⟩

/-- C19, at the input where the code departs from it: both lease callbacks and
`OnStartedLeading` registered, `OnStoppedLeading` nil, outcomes `(true, nil)`
then `(false, err)`. The second tick invokes `StopLeaseRenewal` and panics on
the nil call of line 99 before `CurrentState` is set: `StopLeaseRenewal` is one
invocation ahead of `StartLeaseRenewal` while `CurrentState` is Leader, not
Unknown. -/
theorem Run_lease_nil_OnStoppedLeading :
    noOnStoppedLeading.LeaseCallbacks.StopLeaseRenewal = true ∧
    noOnStoppedLeading.LeaseCallbacks.StartLeaseRenewal = true ∧
    (Run noOnStoppedLeading [Signal.Tick true none,
      Signal.Tick false (some "unavailable")]).state.le.CurrentState = StateLeader ∧
    (Run noOnStoppedLeading [Signal.Tick true none,
      Signal.Tick false (some "unavailable")]).state.trace.count Event.StopLeaseRenewal = 1 ∧
    (Run noOnStoppedLeading [Signal.Tick true none,
      Signal.Tick false (some "unavailable")]).state.trace.count Event.StartLeaseRenewal = 0 ∧
    ¬ LeaseInv (Run noOnStoppedLeading [Signal.Tick true none,
      Signal.Tick false (some "unavailable")]).state := by
  decide

/-! ## Alternation of the leading callbacks -/

/-- A cancel invocation is no leading callback. -/
theorem leadStep_Cancel (p : Option Bool) (c : Nat) : leadStep p (Event.Cancel c) = p := by
  cases p with
  | none => rfl
  | some b => cases b <;> rfl

/-- C20: with `OnStartedLeading` and `OnStoppedLeading` registered, every
sequence of ticks from the constructor's state runs to its end in a state
where the two callbacks have strictly alternated, beginning with
`OnStartedLeading`, and where `OnStartedLeading` is one invocation ahead in
state Leader and level with `OnStoppedLeading` otherwise. The shutdown signal
then returns nil without invoking any callback, so state, alternation and the
two counts are as before it, also for a shutdown in state Leader. -/
theorem Run_leading_alternation (cb : LeaderCallbacks) (lcb : MemberLeaseCallbacks)
    (outcomes : List (Bool × Option String))
    (hstart : cb.OnStartedLeading = true) (hstop : cb.OnStoppedLeading = true) :
    ∃ s, Run (NewLeaderElector cb lcb) (ticksOf outcomes) = RunResult.waiting s ∧
      leadPhase s.trace = some (decide (s.le.CurrentState = StateLeader)) ∧
      s.trace.countP Event.isOnStartedLeading =
        s.trace.count Event.OnStoppedLeading +
          (if s.le.CurrentState = StateLeader then 1 else 0) ∧
      ∃ t, Run (NewLeaderElector cb lcb) (ticksOf outcomes ++ [Signal.Done]) =
          RunResult.returned t none ∧
        t.le.CurrentState = s.le.CurrentState ∧
        callbackTrace t.trace = callbackTrace s.trace ∧
        leadPhase t.trace = leadPhase s.trace ∧
        t.trace.countP Event.isOnStartedLeading = s.trace.countP Event.isOnStartedLeading ∧
        t.trace.count Event.OnStoppedLeading = s.trace.count Event.OnStoppedLeading := by
  have h0 := ScopeInv_start cb lcb
  obtain ⟨s, hrun⟩ := runLoop_ticks_waiting outcomes (Run.start (NewLeaderElector cb lcb)) h0 hstop
  obtain ⟨hs, _⟩ := runLoop_ticks_ScopeInv outcomes _ s h0 hrun
  have hlead := runLoop_ticks_LeadInv outcomes (Run.start (NewLeaderElector cb lcb)) s h0
    (LeadInv_start cb lcb) hstart hrun
  obtain ⟨t, hshut, hle, htr⟩ := shutdown_returned s hs.cancel_eq
  refine ⟨s, hrun, hlead.phase, hlead.counts, t,
    (runLoop_ticks_Done outcomes _ s hrun).trans hshut, by rw [hle], ?_, ?_, ?_, ?_⟩
  · rw [htr]
    cases s.leCtx <;> simp [callbackTrace, Event.isCallback]
  · rw [htr]
    cases s.leCtx <;> simp [leadPhase, List.foldl_append, leadStep_Cancel]
  · rw [htr]
    cases s.leCtx <;> simp [Event.isOnStartedLeading]
  · rw [htr]
    cases s.leCtx <;> simp [List.count_cons]

/-- C20 at a concrete input: all four callbacks registered, one tick
`(true, nil)`, so that the shutdown signal arrives in state Leader. -/
theorem Run_leading_alternation_witness :
    ∃ s, Run (NewLeaderElector ⟨true, true⟩ ⟨true, true⟩) (ticksOf [(true, none)]) =
        RunResult.waiting s ∧
      leadPhase s.trace = some (decide (s.le.CurrentState = StateLeader)) ∧
      s.trace.countP Event.isOnStartedLeading =
        s.trace.count Event.OnStoppedLeading +
          (if s.le.CurrentState = StateLeader then 1 else 0) ∧
      ∃ t, Run (NewLeaderElector ⟨true, true⟩ ⟨true, true⟩)
          (ticksOf [(true, none)] ++ [Signal.Done]) = RunResult.returned t none ∧
        t.le.CurrentState = s.le.CurrentState ∧
        callbackTrace t.trace = callbackTrace s.trace ∧
        leadPhase t.trace = leadPhase s.trace ∧
        t.trace.countP Event.isOnStartedLeading = s.trace.countP Event.isOnStartedLeading ∧
        t.trace.count Event.OnStoppedLeading = s.trace.count Event.OnStoppedLeading :=
  Run_leading_alternation ⟨true, true⟩ ⟨true, true⟩ [(true, none)] rfl rfl

end LeaderElection
